import Mathlib

/-! Verification of the LuckyDock configuration manager (manager.pyw).

The Python source manipulates Rainmeter INI files through configparser.  We
embed the configuration state shallowly as a list of sections, each a name
together with an ordered association list of (option, value) pairs.
configparser lowercases option keys on both read and write (optionxform),
so every key our embedded functions store or query is written directly in
lowercase.  Interpolation is not modelled: no value written by the manager
contains a percent sign. -/

/-- ASCII whitespace recognized by Python str.strip() with no argument. -/
def pyIsSpace (c : Char) : Bool :=
  c == ' ' || c == '\t' || c == '\n' || c == '\x0D' || c == '\x0B' || c == '\x0C'

/-- Python str.strip() on a character list: drop leading and trailing whitespace. -/
def stripWSList (l : List Char) : List Char :=
  ((l.dropWhile pyIsSpace).reverse.dropWhile pyIsSpace).reverse

/-- Python str.strip() (no argument) on strings. -/
def stripWS (s : String) : String :=
  String.mk (stripWSList s.data)

/-- Python str.startswith, computed on the underlying character lists. -/
def strStartsWith (s p : String) : Bool :=
  p.data.isPrefixOf s.data

/-- Python str.endswith, computed on the underlying character lists. -/
def strEndsWith (s p : String) : Bool :=
  p.data.isSuffixOf s.data

/-- Python slicing s[n:], computed on the underlying character list. -/
def strDrop (s : String) (n : Nat) : String :=
  String.mk (s.data.drop n)

/-- Decimal digits of a natural number, most significant first (fuel-based so
that it reduces in the kernel). -/
def natReprAux : Nat → Nat → List Char
  | 0, _ => []
  | fuel + 1, n => if n = 0 then [] else natReprAux fuel (n / 10) ++ [Nat.digitChar (n % 10)]

/-- Decimal representation of a natural number, as produced by Python str(). -/
def natRepr (n : Nat) : String :=
  if n = 0 then "0" else String.mk (natReprAux (n + 1) n)

/-- Decimal representation of an integer, as produced by Python str(). -/
def intRepr : Int → String
  | Int.ofNat n => natRepr n
  | Int.negSucc n => "-" ++ natRepr (n + 1)

/-- DockEntry: one dock item (class DockEntry in manager.pyw). -/
structure DockEntry where
  name : String
  app_path : String
  icon_path : String
  is_separator : Bool
deriving DecidableEq, Repr

/-- Character class of the regex [^a-zA-Z0-9_] used by sanitize_section_name:
true on the characters that are kept unchanged. -/
def isWordChar (c : Char) : Bool :=
  ('a' ≤ c && c ≤ 'z') || ('A' ≤ c && c ≤ 'Z') || ('0' ≤ c && c ≤ '9') || c == '_'

/-- Collapse runs of consecutive underscores to a single underscore
(re.sub of underscore-runs); the flag records whether the previous kept
character was an underscore. -/
def collapseAux : Bool → List Char → List Char
  | _, [] => []
  | prevU, c :: rest =>
    if c = '_' then
      if prevU then collapseAux true rest else '_' :: collapseAux true rest
    else c :: collapseAux false rest

/-- Python str.strip with argument, for underscores: drop leading and trailing
underscores. -/
def stripUnderscores (l : List Char) : List Char :=
  ((l.dropWhile (· == '_')).reverse.dropWhile (· == '_')).reverse

/-- DockValidator.sanitize_section_name: replace characters outside
[a-zA-Z0-9_] by an underscore, collapse runs of underscores, strip leading
and trailing underscores, and fall back to "Entry" when nothing remains. -/
def sanitize_section_name (name : String) : String :=
  let repl := name.data.map (fun c => if isWordChar c then c else '_')
  let stripped := stripUnderscores (collapseAux false repl)
  if stripped.isEmpty then "Entry" else String.mk stripped

/-- Tail of a valid Python integer literal body: after a digit, either the
list ends, or an underscore must be followed by a digit, or a digit follows. -/
def vunAux : List Char → Bool
  | [] => true
  | '_' :: [] => false
  | '_' :: c :: rest => c.isDigit && vunAux rest
  | c :: rest => c.isDigit && vunAux rest

/-- Valid body of a Python int() literal: digits with single underscores
strictly between digits. -/
def validUnderscoreNum : List Char → Bool
  | [] => false
  | c :: rest => c.isDigit && vunAux rest

/-- Numeric value of a list of decimal digits (underscores filtered out first). -/
def digitsVal (l : List Char) : Nat :=
  l.foldl (fun a c => 10 * a + (c.toNat - 48)) 0

/-- Python int(str): strip whitespace, optional sign, decimal digits with
single underscores between digits; none models the ValueError raise.  (Only
ASCII digits are modelled.) -/
def pyParseInt (s : String) : Option Int :=
  match stripWSList s.data with
  | '+' :: rest => if validUnderscoreNum rest then some (Int.ofNat (digitsVal (rest.filter Char.isDigit))) else none
  | '-' :: rest => if validUnderscoreNum rest then some (-(Int.ofNat (digitsVal (rest.filter Char.isDigit)))) else none
  | l => if validUnderscoreNum l then some (Int.ofNat (digitsVal (l.filter Char.isDigit))) else none

/-- IniSection: one INI section as held by configparser, with its ordered
option list (keys stored lowercased by optionxform). -/
structure IniSection where
  name : String
  opts : List (String × String)
deriving DecidableEq, Repr

/-- Config: the whole parser state, sections in file order. -/
abbrev Config := List IniSection

/-- Names of all sections, in order (config.sections()). -/
def sectionNames (c : Config) : List String :=
  c.map IniSection.name

/-- Look up an option value: first section with the given name, then its
option list (configparser get with optionxform already applied to the key). -/
def getOpt (c : Config) (sec key : String) : Option String :=
  match c.find? (fun s => s.name == sec) with
  | some s => s.opts.lookup key
  | none => none

/-- Replace the value of a key in an association list, keeping its position,
or append the pair (Python dict assignment on the section mapping). -/
def setPair (key val : String) : List (String × String) → List (String × String)
  | [] => [(key, val)]
  | p :: rest => if p.fst == key then (key, val) :: rest else p :: setPair key val rest

/-- config.set(sec, key, val): update the first section with the given name.
(configparser raises on a missing section; every call site in the manager
ensures the section exists, so the missing case is a no-op here.) -/
def setOpt (sec key val : String) : Config → Config
  | [] => []
  | s :: rest =>
    if s.name == sec then ⟨s.name, setPair key val s.opts⟩ :: rest
    else s :: setOpt sec key val rest

/-- config.add_section: a new empty section is appended at the end. -/
def addSection (c : Config) (sec : String) : Config :=
  c ++ [⟨sec, []⟩]

/-- Mapping-style assignment config[sec] = dict: an existing section keeps its
position but its options are replaced; otherwise the section is appended. -/
def setSectionItems (sec : String) (opts : List (String × String)) : Config → Config
  | [] => [⟨sec, opts⟩]
  | s :: rest =>
    if s.name == sec then ⟨sec, opts⟩ :: rest
    else s :: setSectionItems sec opts rest

/-- Constants.EXCLUDED_SECTIONS. -/
def excludedSectionsList : List String :=
  ["Variables", "Rainmeter", "Metadata", "MeasureAppCount", "Style", "MeasureFlash", "BackgroundMeter"]

/-- DockConfigManager._should_exclude_section. -/
def shouldExcludeSection (sec : String) : Bool :=
  excludedSectionsList.contains sec ||
    strEndsWith sec "_TooltipBG" ||
    strEndsWith sec "_TooltipText" ||
    strStartsWith sec "999_Tooltip_"

/-- DockConfigManager._remove_entry_sections: remove every section whose name
is not in EXCLUDED_SECTIONS. -/
def removeEntrySections (c : Config) : Config :=
  c.filter (fun s => excludedSectionsList.contains s.name)

/-- Candidate scan of the section-name collision loop of
_add_entry_to_config: try orig_k, orig_(k+1), ... while the candidate is
taken.  The Python loop always terminates because the candidates are
pairwise distinct and the section list is finite; the fuel is chosen large
enough that the fallback is never reached. -/
def uniqueNameAux (orig : String) (secs : List String) : Nat → Nat → String
  | 0, k => orig ++ "_" ++ natRepr k
  | fuel + 1, k =>
    let cand := orig ++ "_" ++ natRepr k
    if secs.contains cand then uniqueNameAux orig secs fuel (k + 1) else cand

/-- Collision avoidance of _add_entry_to_config: keep the sanitized name if
free, else suffix _1, _2, ... until a free name is found. -/
def uniqueSectionName (orig : String) (secs : List String) : String :=
  if secs.contains orig then uniqueNameAux orig secs (secs.length + 1) 1 else orig

/-- Section name assigned to an entry by _add_entry_to_config given the
current parser state. -/
def assignedSectionName (c : Config) (e : DockEntry) : String :=
  uniqueSectionName (sanitize_section_name e.name) (sectionNames c)

/-- Appearance settings dictionary (load_appearance_settings /
_get_current_appearance_settings). -/
structure AppearanceSettings where
  corner_radius : Int
  dock_size : Int
  current_color : Int × Int × Int
  opacity : Int
  orientation : String
  double_click : Bool
  tooltips : Bool
  tooltip_delay : Int
  tooltip_font : String
  tooltip_font_size : Int
deriving DecidableEq, Repr

/-- DockConfigManager._get_default_appearance_settings. -/
def defaultAppearanceSettings : AppearanceSettings :=
  ⟨10, 60, (0, 0, 0), 175, "Vertical", false, false, 500, "Segoe UI", 9⟩

/-- DockConfigManager._safe_int_parse: int(value) if value else default,
falling back to the default on a parse failure. -/
def safeIntParse (value : Option String) (dflt : Int) : Int :=
  match value with
  | none => dflt
  | some s => if s = "" then dflt else (pyParseInt s).getD dflt

/-- Comma-separated RGB parse of load_appearance_settings:
[int(x.strip()) for x in bg_color_str.split(',')], none on any failure. -/
def splitCommaAux : List Char → List Char → List String
  | acc, [] => [String.mk acc.reverse]
  | acc, c :: rest =>
    if c = ',' then String.mk acc.reverse :: splitCommaAux [] rest
    else splitCommaAux (c :: acc) rest

/-- Python str.split on a single comma: fields between commas, empty fields
kept (so the empty string splits to one empty field). -/
def splitComma (s : String) : List String :=
  splitCommaAux [] s.data

def parseRGB (s : String) : Option (List Int) :=
  (splitComma s).mapM (fun x => pyParseInt (stripWS x))

/-- DockConfigManager.load_appearance_settings on a parsed configuration.
(The missing-file branch is not modelled; loading operates on the parsed
sections.) -/
def loadAppearanceSettings (c : Config) : AppearanceSettings :=
  match c.find? (fun s => s.name == "Variables") with
  | none => defaultAppearanceSettings
  | some vars =>
    let current_color : Int × Int × Int :=
      match parseRGB ((vars.opts.lookup "backgroundcolor").getD "0,0,0") with
      | some [r, g, b] => (r, g, b)
      | some _ => (0, 0, 0)
      | none => (0, 0, 0)
    let orientation :=
      match pyParseInt ((vars.opts.lookup "orientation").getD "0") with
      | some n => if n = 1 then "Horizontal" else "Vertical"
      | none => "Vertical"
    { corner_radius := safeIntParse (vars.opts.lookup "cornerradius") 10
      dock_size := safeIntParse (vars.opts.lookup "iconsize") 60
      current_color := current_color
      opacity := safeIntParse (vars.opts.lookup "backgroundopacity") 175
      orientation := orientation
      double_click := ((vars.opts.lookup "doubleclickmode").getD "0") == "1"
      tooltips := ((vars.opts.lookup "showtooltips").getD "0") == "1"
      tooltip_delay := safeIntParse (vars.opts.lookup "tooltipdelay") 500
      tooltip_font := (vars.opts.lookup "tooltipfont").getD "Segoe UI"
      tooltip_font_size := safeIntParse (vars.opts.lookup "tooltipfontsize") 9 }

/-- Mouse action string written by _add_mouse_actions. -/
def mouseAction (appPath secName : String) : String :=
  "[" ++ appPath ++ "][!SetVariable CurrentIcon \"" ++ secName ++ "\"][!CommandMeasure MeasureFlash \"Execute 1\"]"

/-- DockConfigManager._add_mouse_actions. -/
def addMouseActions (c : Config) (nm : String) (e : DockEntry) (doubleClick : Bool) : Config :=
  if doubleClick then setOpt nm "leftmousedoubleclickaction" (mouseAction e.app_path nm) c
  else setOpt nm "leftmouseupaction" (mouseAction e.app_path nm) c

/-- Hover-in action string of _add_hover_actions. -/
def baseHoverIn (nm : String) : String :=
  "[!SetOption " ++ nm ++ " W \"(#IconSize# + #HoverSize#)\"]" ++
  "[!SetOption " ++ nm ++ " H \"(#IconSize# + #HoverSize#)\"]" ++
  "[!SetOption " ++ nm ++ " X \"([" ++ nm ++ ":X] - (#HoverSize# / 2))\"]" ++
  "[!SetOption " ++ nm ++ " Y \"([" ++ nm ++ ":Y] - (#HoverSize# / 2))\"]" ++
  "[!UpdateMeter " ++ nm ++ "][!Redraw]"

/-- Hover-out action string of _add_hover_actions. -/
def baseHoverOut (nm : String) (i : Nat) : String :=
  "[!SetOption " ++ nm ++ " W \"#IconSize#\"]" ++
  "[!SetOption " ++ nm ++ " H \"#IconSize#\"]" ++
  "[!SetOption " ++ nm ++ " X \"(#Horizontal# ? (#PadLeft# + " ++ natRepr i ++
    " * (#IconSize# + #HorizontalGap#)) : ((#BackgroundWidth# - #IconSize#) / 2))\"]" ++
  "[!SetOption " ++ nm ++ " Y \"(#Vertical# ? (#PadTop# + " ++ natRepr i ++
    " * (#IconSize# + #VerticalGap#)) : ((#BackgroundHeight# - #IconSize#) / 2))\"]" ++
  "[!UpdateMeter " ++ nm ++ "][!Redraw]"

/-- Tooltip background helper section name 999_Tooltip_{i}_BG. -/
def ttBG (i : Nat) : String := "999_Tooltip_" ++ natRepr i ++ "_BG"

/-- Tooltip text helper section name 999_Tooltip_{i}_Text. -/
def ttText (i : Nat) : String := "999_Tooltip_" ++ natRepr i ++ "_Text"

/-- Tooltip show action string. -/
def tooltipShow (bg txt : String) : String :=
  "[!SetOption " ++ bg ++ " Hidden \"0\"]" ++ "[!SetOption " ++ txt ++ " Hidden \"0\"]" ++
  "[!UpdateMeter " ++ bg ++ "]" ++ "[!UpdateMeter " ++ txt ++ "][!Redraw]"

/-- Tooltip hide action string. -/
def tooltipHide (bg txt : String) : String :=
  "[!SetOption " ++ bg ++ " Hidden \"1\"]" ++ "[!SetOption " ++ txt ++ " Hidden \"1\"]" ++
  "[!UpdateMeter " ++ bg ++ "]" ++ "[!UpdateMeter " ++ txt ++ "][!Redraw]"

/-- DockConfigManager._create_tooltip_sections (option keys lowercased by
configparser when the dicts are assigned). -/
def createTooltipSections (c : Config) (bg txt display : String) (i : Nat) (isHoriz : Bool) : Config :=
  if isHoriz then
    let c := setSectionItems bg
      [("meter", "Shape"),
       ("shape", "Rectangle 0,0,(#IconSize# + 20),(#TooltipFontSize# + 16),5 | Fill Color #BackgroundColor#,200 | StrokeWidth 0"),
       ("x", "(#PadLeft# + " ++ natRepr i ++ " * (#IconSize# + #HorizontalGap#) - 10)"),
       ("y", "(((#BackgroundHeight# - #IconSize#) / 2) - (#TooltipFontSize# + 20) + 40)"),
       ("hidden", "1"), ("dynamicvariables", "1")] c
    setSectionItems txt
      [("meter", "String"), ("text", display), ("fontcolor", "255,255,255,255"),
       ("fontsize", "#TooltipFontSize#"), ("fontface", "#TooltipFont#"), ("stringalign", "Center"),
       ("x", "(#PadLeft# + " ++ natRepr i ++ " * (#IconSize# + #HorizontalGap#) + (#IconSize# / 2))"),
       ("y", "(((#BackgroundHeight# - #IconSize#) / 2) - (#TooltipFontSize# + 16) + 40)"),
       ("hidden", "1"), ("dynamicvariables", "1")] c
  else
    let c := setSectionItems bg
      [("meter", "Shape"),
       ("shape", "Rectangle 0,0,(#BackgroundWidth# - 4),(#TooltipFontSize# + 16),5 | Fill Color #BackgroundColor#,200 | StrokeWidth 0"),
       ("x", "2"),
       ("y", "(#PadTop# + " ++ natRepr i ++ " * (#IconSize# + #VerticalGap#) + (#IconSize# / 2) - (#TooltipFontSize# / 2) - 4)"),
       ("hidden", "1"), ("dynamicvariables", "1")] c
    setSectionItems txt
      [("meter", "String"), ("text", display), ("fontcolor", "255,255,255,255"),
       ("fontsize", "#TooltipFontSize#"), ("fontface", "#TooltipFont#"), ("stringalign", "Center"),
       ("x", "(#BackgroundWidth# / 2)"),
       ("y", "(#PadTop# + " ++ natRepr i ++ " * (#IconSize# + #VerticalGap#) + (#IconSize# / 2) - (#TooltipFontSize# / 2))"),
       ("hidden", "1"), ("dynamicvariables", "1")] c

/-- DockConfigManager._add_hover_actions. -/
def addHoverActions (c : Config) (nm display : String) (i : Nat) (tooltipsOn isHoriz : Bool) : Config :=
  if tooltipsOn then
    let bg := ttBG i
    let txt := ttText i
    let c := createTooltipSections c bg txt display i isHoriz
    let c := setOpt nm "mouseoveraction" (baseHoverIn nm ++ tooltipShow bg txt) c
    setOpt nm "mouseleaveaction" (baseHoverOut nm i ++ tooltipHide bg txt) c
  else
    let c := setOpt nm "mouseoveraction" (baseHoverIn nm) c
    setOpt nm "mouseleaveaction" (baseHoverOut nm i) c

/-- X position formula emitted for horizontal orientation at index i. -/
def horizFormulaX (i : Nat) : String :=
  "(#PadLeft# + " ++ natRepr i ++ " * (#IconSize# + #HorizontalGap#))"

/-- Y position formula emitted for vertical orientation at index i. -/
def vertFormulaY (i : Nat) : String :=
  "(#PadTop# + " ++ natRepr i ++ " * (#IconSize# + #VerticalGap#))"

/-- DockConfigManager._add_entry_to_config. -/
def addEntryToConfig (c : Config) (e : DockEntry) (i : Nat) (s : AppearanceSettings) : Config :=
  let nm := assignedSectionName c e
  let c := setSectionItems nm [] c
  let c := setOpt nm "meter" "Image" c
  let c := setOpt nm "meterstyle" "Style" c
  let c := setOpt nm "imagename" e.icon_path c
  let c := setOpt nm "w" "#IconSize#" c
  let c := setOpt nm "h" "#IconSize#" c
  let c := setOpt nm "displayname" e.name c
  let isHoriz := s.orientation == "Horizontal"
  let c :=
    if isHoriz then
      setOpt nm "y" "((#BackgroundHeight# - #IconSize#) / 2)" (setOpt nm "x" (horizFormulaX i) c)
    else
      setOpt nm "y" (vertFormulaY i) (setOpt nm "x" "((#BackgroundWidth# - #IconSize#) / 2)" c)
  if e.is_separator then setOpt nm "dynamicvariables" "1" c
  else
    let c := addMouseActions c nm e s.double_click
    let c := addHoverActions c nm e.name i s.tooltips isHoriz
    setOpt nm "dynamicvariables" "1" c

/-- Fold of _add_entry_to_config over the entry list (the enumerate loop in
save_entries_to_ini). -/
def addAllEntries (s : AppearanceSettings) : Config → Nat → List DockEntry → Config
  | c, _, [] => c
  | c, i, e :: rest => addAllEntries s (addEntryToConfig c e i s) (i + 1) rest

/-- Replay of the fold that records the section name assigned to each entry. -/
def entrySectionNames (s : AppearanceSettings) : Config → Nat → List DockEntry → List String
  | _, _, [] => []
  | c, i, e :: rest =>
    assignedSectionName c e :: entrySectionNames s (addEntryToConfig c e i s) (i + 1) rest

/-- RGB string written to the Variables section. -/
def rgbString (col : Int × Int × Int) : String :=
  intRepr col.1 ++ "," ++ intRepr col.2.1 ++ "," ++ intRepr col.2.2

/-- DockConfigManager._update_config_variables. -/
def updateConfigVariables (c0 : Config) (entries : List DockEntry) (s : AppearanceSettings) : Config :=
  let c := if (sectionNames c0).contains "Variables" then c0 else addSection c0 "Variables"
  let c := setOpt "Variables" "appcount" (natRepr entries.length) c
  let c := setOpt "Variables" "cornerradius" (intRepr s.corner_radius) c
  let c := setOpt "Variables" "iconsize" (intRepr s.dock_size) c
  let c := setOpt "Variables" "backgroundcolor" (rgbString s.current_color) c
  let c := setOpt "Variables" "backgroundopacity" (intRepr s.opacity) c
  let isHoriz := s.orientation == "Horizontal"
  let c := setOpt "Variables" "orientation" (if isHoriz then "1" else "0") c
  let c := setOpt "Variables" "horizontal" (if isHoriz then "1" else "0") c
  let c := setOpt "Variables" "vertical" (if isHoriz then "0" else "1") c
  let c := if (getOpt c "Variables" "backgroundheight").isSome then c
           else setOpt "Variables" "backgroundheight" "80" c
  let c := setOpt "Variables" "doubleclickmode" (if s.double_click then "1" else "0") c
  let c := setOpt "Variables" "showtooltips" (if s.tooltips then "1" else "0") c
  let c := setOpt "Variables" "tooltipdelay" (intRepr s.tooltip_delay) c
  let c := setOpt "Variables" "tooltipfont" s.tooltip_font c
  setOpt "Variables" "tooltipfontsize" (intRepr s.tooltip_font_size) c

/-- Shape string written by _update_background_meter. -/
def backgroundShape : String :=
  "Rectangle 0,0,(#Horizontal# ? ((#IconSize# + #HorizontalGap#) * #AppCount# + #PadLeft# + #PadRight# - #HorizontalGap#) : #BackgroundWidth#),(#Vertical# ? ((#IconSize# + #VerticalGap#) * #AppCount# + #PadTop# + #PadBottom# - #VerticalGap#) : #BackgroundHeight#),#CornerRadius# | Fill Color #BackgroundColor#,#BackgroundOpacity# | StrokeWidth 0"

/-- DockConfigManager._update_background_meter. -/
def updateBackgroundMeter (c0 : Config) : Config :=
  let c := if (sectionNames c0).contains "BackgroundMeter" then c0 else addSection c0 "BackgroundMeter"
  let c := setOpt "BackgroundMeter" "meter" "Shape" c
  let c := setOpt "BackgroundMeter" "shape" backgroundShape c
  setOpt "BackgroundMeter" "dynamicvariables" "1" c

/-- DockConfigManager.save_entries_to_ini on the parsed configuration state. -/
def saveEntriesToIni (c : Config) (entries : List DockEntry) (s : AppearanceSettings) : Config :=
  updateBackgroundMeter
    (updateConfigVariables (addAllEntries s (removeEntrySections c) 0 entries) entries s)

/-- Writing the configuration with config.write and parsing the file again:
option values lose leading and trailing whitespace (values are assumed
single-line; keys are stored lowercased already). -/
def writeThenRead (c : Config) : Config :=
  c.map (fun sec => ⟨sec.name, sec.opts.map (fun p => (p.fst, stripWS p.snd))⟩)

/-- Leftmost match of the regex searching for a bracketed quoted command
token in an action string (re.search of a quote pair directly inside
brackets), returning the quoted group.  When a match attempt at position i
fails, the search resumes at i+1; the character there is a double quote and
can never begin a match, so the recursion resumes behind it. -/
def searchQuotedCmd : List Char → Option (List Char)
  | [] => none
  | '[' :: '"' :: rest =>
    match rest.dropWhile (fun c => !(c == '"')) with
    | '"' :: ']' :: _ => some (rest.takeWhile (fun c => !(c == '"')))
    | _ => searchQuotedCmd rest
  | _ :: rest => searchQuotedCmd rest

/-- DockConfigManager._extract_app_path. -/
def extractAppPath (opts : List (String × String)) : String :=
  let a1 := (opts.lookup "leftmouseupaction").getD ""
  match (if a1 == "" then none else searchQuotedCmd a1.data) with
  | some g => "\"" ++ String.mk g ++ "\""
  | none =>
    let a2 := (opts.lookup "leftmousedoubleclickaction").getD ""
    match (if a2 == "" then none else searchQuotedCmd a2.data) with
    | some g => "\"" ++ String.mk g ++ "\""
    | none => ""

/-- DockConfigManager.load_entries_from_ini on the parsed configuration. -/
def loadEntriesFromIni (c : Config) : List DockEntry :=
  c.filterMap (fun sec =>
    if shouldExcludeSection sec.name then none
    else
      let name := (sec.opts.lookup "displayname").getD sec.name
      some ⟨name, extractAppPath sec.opts, (sec.opts.lookup "imagename").getD "",
            strStartsWith name "Separator_" || strStartsWith sec.name "Separator_"⟩)

/-- Number of entries carrying a given name (the duplicate check of
validate_single_entry). -/
def countName (entries : List DockEntry) (n : String) : Nat :=
  (entries.filter (fun e => e.name == n)).length

/-- DockValidator.validate_single_entry.  ok false models returning False
after an error dialog (or a declined confirmation), error models the raise
of the silent path; ask models messagebox.askyesno. -/
def validateSingleEntry (ask : String → Bool) (showDialogs : Bool)
    (allEntries : List DockEntry) (idx : Nat) (e : DockEntry) : Except String Bool :=
  if stripWS e.name = "" then
    if showDialogs then Except.ok false
    else Except.error ("Entry #" ++ natRepr (idx + 1) ++ " has an empty name")
  else if 1 < countName allEntries e.name then
    if showDialogs then Except.ok false
    else Except.error ("Duplicate entry name: " ++ e.name)
  else if !e.is_separator && (stripWS e.app_path = "" || e.app_path = "\"\"") && showDialogs then
    Except.ok (ask ("Entry '" ++ e.name ++ "' has an empty app path. Save anyway?"))
  else if (stripWS e.icon_path = "" || e.icon_path = "\"\"") && showDialogs then
    Except.ok (ask ("Entry '" ++ e.name ++ "' has an empty icon path. Save anyway?"))
  else Except.ok true

/-- Loop body of DockValidator.validate_entries. -/
def validateEntriesAux (ask : String → Bool) (showDialogs : Bool)
    (allEntries : List DockEntry) : Nat → List DockEntry → Except String Bool
  | _, [] => Except.ok true
  | i, e :: rest =>
    match validateSingleEntry ask showDialogs allEntries i e with
    | Except.error m => Except.error m
    | Except.ok false => Except.ok false
    | Except.ok true => validateEntriesAux ask showDialogs allEntries (i + 1) rest

/-- DockValidator.validate_entries. -/
def validateEntries (ask : String → Bool) (entries : List DockEntry) (showDialogs : Bool) :
    Except String Bool :=
  validateEntriesAux ask showDialogs entries 0 entries

/-- Name-validity condition used throughout: every entry name non-empty
after stripping, and names pairwise distinct (case-sensitive). -/
def goodNames (entries : List DockEntry) : Prop :=
  (∀ e ∈ entries, stripWS e.name ≠ "") ∧ (entries.map DockEntry.name).Nodup

instance : DecidablePred goodNames := fun entries => by
  unfold goodNames; infer_instance

/-- Python str.isdigit restricted to ASCII digits. -/
def pyIsDigitStr (s : String) : Bool :=
  !s.data.isEmpty && s.data.all Char.isDigit

/-- Numeric suffixes of the existing dock names with the LuckyDock prefix
(the existing_numbers list of get_next_dock_number). -/
def dockNums (docks : List String) : List Nat :=
  docks.filterMap (fun d =>
    if strStartsWith d "LuckyDock" && pyIsDigitStr (strDrop d 9) then
      some (digitsVal (strDrop d 9).data)
    else none)

/-- Largest element of a list of naturals (Python max on a non-empty list). -/
def listMax (l : List Nat) : Nat := l.foldl max 0

/-- Scan loop of get_next_dock_number: try i, i+1, ... for fuel steps,
returning the first number not taken, with the loop fallback value. -/
def scanFree (nums : List Nat) (fallback : Nat) : Nat → Nat → Nat
  | _, 0 => fallback
  | i, fuel + 1 => if nums.contains i then scanFree nums fallback (i + 1) fuel else i

/-- DockConfigManager.get_next_dock_number. -/
def get_next_dock_number (docks : List String) : Nat :=
  let nums := dockNums docks
  if nums.isEmpty then 1
  else scanFree nums (listMax nums + 1) 1 (listMax nums + 1)

/-- Quoted command string "..." with no interior double quote: the shape of
app paths that the action-string regex recovers verbatim. -/
def wellQuoted (a : String) : Bool :=
  match a.data with
  | '"' :: rest => !rest.isEmpty && (rest.getLast? == some '"') && rest.dropLast.all (fun c => !(c == '"'))
  | _ => false

/-- Observable part of an entry for the round-trip statement: name, app path
(only meaningful for non-separators), icon path and separator flag. -/
def entryObs (e : DockEntry) : String × Option String × String × Bool :=
  (e.name, if e.is_separator then none else some e.app_path, e.icon_path, e.is_separator)

/-- Round-trip side conditions for one entry, given the section name the
serializer assigns to it: the section is not skipped by the loader, name and
icon survive the file write (no edge whitespace), the separator flag agrees
with the Separator_ naming convention used by the loader, and a
non-separator app path is a quoted token the action regex recovers. -/
def entryCondB (nm : String) (e : DockEntry) : Bool :=
  !shouldExcludeSection nm &&
  (stripWS e.name == e.name) && (stripWS e.icon_path == e.icon_path) &&
  (e.is_separator == (strStartsWith e.name "Separator_" || strStartsWith nm "Separator_")) &&
  (e.is_separator || wellQuoted e.app_path)

/-- entryCondB along the serializer replay. -/
def safeAux (s : AppearanceSettings) : Config → Nat → List DockEntry → Bool
  | _, _, [] => true
  | c, i, e :: rest =>
    entryCondB (assignedSectionName c e) e && safeAux s (addEntryToConfig c e i s) (i + 1) rest

/-- Round-trip side condition for a whole save. -/
def roundTripSafe (c : Config) (entries : List DockEntry) (s : AppearanceSettings) : Bool :=
  safeAux s (removeEntrySections c) 0 entries

/-- Variables keys written by _update_config_variables (the entry count, the
appearance settings with orientation stored in its three keys, and the
BackgroundHeight default backfill). -/
def varUpdatedKeys : List String :=
  ["appcount", "cornerradius", "iconsize", "backgroundcolor", "backgroundopacity",
   "orientation", "horizontal", "vertical", "backgroundheight",
   "doubleclickmode", "showtooltips", "tooltipdelay", "tooltipfont", "tooltipfontsize"]

/-- Editor state that the entry operations of LuckyDockManager touch
(widget state is UI glue and not modelled). -/
structure ManagerState where
  iniFile : Option String
  entries : List DockEntry
  selectedEntryIndex : Option Nat
  status : String
deriving DecidableEq, Repr

/-- Outcome of LuckyDockManager._save_ini_silent up to the file write: the
guard on ini_file and the silent validation; the caller supplies the file
write / engine refresh outcome. -/
def saveIniSilentResult (st : ManagerState) : Except String Unit :=
  match st.iniFile with
  | none => Except.error "No dock selected"
  | some _ =>
    match validateEntries (fun _ => false) st.entries false with
    | Except.error m => Except.error m
    | Except.ok false => Except.error "Validation failed"
    | Except.ok true => Except.ok ()

/-- LuckyDockManager._auto_save_and_refresh: try the silent save and the
engine refresh (io is the external outcome of the file write and refresh),
and report the result only in the status line. -/
def autoSaveAndRefresh (desc : String) (io : Except String Unit) (st : ManagerState) : ManagerState :=
  match (match saveIniSilentResult st with
         | Except.ok _ => io
         | Except.error m => Except.error m) with
  | Except.ok _ => { st with status := desc ++ " and applied successfully" }
  | Except.error m => { st with status := desc ++ " but failed to apply changes: " ++ m }

/-- The placeholder appended by add_entry. -/
def newEntryDefault : DockEntry := ⟨"New Entry", "\"\"", "\"\"", false⟩

/-- LuckyDockManager.add_entry. -/
def addEntryOp (io : Except String Unit) (st : ManagerState) : ManagerState :=
  match st.iniFile with
  | none => { st with status := "Error: No dock selected" }
  | some _ =>
    let st' : ManagerState :=
      { st with entries := st.entries ++ [newEntryDefault],
                selectedEntryIndex := some st.entries.length }
    autoSaveAndRefresh "Added new entry" io st'

/-- Separator icon path (os.path.join with the Windows separator). -/
def separatorIconPath (baseDir : String) : String :=
  baseDir ++ "\\@Resources\\images\\separator.png"

/-- LuckyDockManager.add_separator. -/
def addSeparatorOp (baseDir : String) (io : Except String Unit) (st : ManagerState) : ManagerState :=
  match st.iniFile with
  | none => { st with status := "Error: No dock selected" }
  | some _ =>
    let sepCount := (st.entries.filter (fun e => e.is_separator)).length
    let newE : DockEntry :=
      ⟨"Separator_" ++ natRepr (sepCount + 1), "\"\"", separatorIconPath baseDir, true⟩
    let st' : ManagerState :=
      { st with entries := st.entries ++ [newE],
                selectedEntryIndex := some st.entries.length }
    autoSaveAndRefresh "Added new separator" io st'

/-- LuckyDockManager.update_entry, with the three text fields as inputs. -/
def updateEntryOp (nameField appPathField iconPathField : String)
    (io : Except String Unit) (st : ManagerState) : ManagerState :=
  match st.selectedEntryIndex with
  | none => { st with status := "Error: No entry selected" }
  | some idx =>
    let name := stripWS nameField
    if name = "" then { st with status := "Error: Entry name cannot be empty" }
    else
      let isSep := strStartsWith name "Separator_"
      let updated : DockEntry := ⟨name, appPathField, iconPathField, isSep⟩
      let st' : ManagerState := { st with entries := st.entries.set idx updated }
      autoSaveAndRefresh ("Updated entry: " ++ name) io st'

/-- LuckyDockManager.remove_entry, with the confirmation answer as input. -/
def removeEntryOp (confirm : Bool) (io : Except String Unit) (st : ManagerState) : ManagerState :=
  match st.selectedEntryIndex with
  | none => { st with status := "Error: No entry selected" }
  | some idx =>
    let entryName := ((st.entries.get? idx).map DockEntry.name).getD ""
    if !confirm then { st with status := "Delete cancelled" }
    else
      let newEntries := st.entries.eraseIdx idx
      let newSel := if newEntries.isEmpty then none else some (min idx (newEntries.length - 1))
      autoSaveAndRefresh ("Removed entry '" ++ entryName ++ "'") io
        { st with entries := newEntries, selectedEntryIndex := newSel }

/-- LuckyDockManager.move_entry. -/
def moveEntryOp (direction : Int) (io : Except String Unit) (st : ManagerState) : ManagerState :=
  match st.selectedEntryIndex with
  | none => { st with status := "Error: No entry selected" }
  | some idx =>
    let newIndex : Int := (idx : Int) + direction
    let dirText := if direction < 0 then "up" else "down"
    if 0 ≤ newIndex ∧ newIndex < (st.entries.length : Int) then
      let ni := newIndex.toNat
      let a := st.entries.getD idx ⟨"", "", "", false⟩
      let b := st.entries.getD ni ⟨"", "", "", false⟩
      let movedName := a.name
      let st' : ManagerState :=
        { st with entries := (st.entries.set idx b).set ni a,
                  selectedEntryIndex := some ni }
      autoSaveAndRefresh ("Moved '" ++ movedName ++ "' " ++ dirText) io st'
    else { st with status := "Cannot move entry further " ++ dirText }

/-- Option list of the section that _add_entry_to_config writes for one
entry, in write order (used to state the structure of the serializer
output). -/
def entrySectionFor (nm : String) (e : DockEntry) (i : Nat) (s : AppearanceSettings) : IniSection :=
  let xy : List (String × String) :=
    if s.orientation == "Horizontal" then
      [("x", horizFormulaX i), ("y", "((#BackgroundHeight# - #IconSize#) / 2)")]
    else
      [("x", "((#BackgroundWidth# - #IconSize#) / 2)"), ("y", vertFormulaY i)]
  let tail : List (String × String) :=
    if e.is_separator then [("dynamicvariables", "1")]
    else
      (if s.double_click then [("leftmousedoubleclickaction", mouseAction e.app_path nm)]
       else [("leftmouseupaction", mouseAction e.app_path nm)]) ++
      (if s.tooltips then
        [("mouseoveraction", baseHoverIn nm ++ tooltipShow (ttBG i) (ttText i)),
         ("mouseleaveaction", baseHoverOut nm i ++ tooltipHide (ttBG i) (ttText i))]
       else
        [("mouseoveraction", baseHoverIn nm), ("mouseleaveaction", baseHoverOut nm i)]) ++
      [("dynamicvariables", "1")]
  ⟨nm, [("meter", "Image"), ("meterstyle", "Style"), ("imagename", e.icon_path),
        ("w", "#IconSize#"), ("h", "#IconSize#"), ("displayname", e.name)] ++ xy ++ tail⟩

/-- The tooltip background helper section for index i. -/
def ttBGSection (i : Nat) (isHoriz : Bool) : IniSection :=
  if isHoriz then
    ⟨ttBG i,
     [("meter", "Shape"),
      ("shape", "Rectangle 0,0,(#IconSize# + 20),(#TooltipFontSize# + 16),5 | Fill Color #BackgroundColor#,200 | StrokeWidth 0"),
      ("x", "(#PadLeft# + " ++ natRepr i ++ " * (#IconSize# + #HorizontalGap#) - 10)"),
      ("y", "(((#BackgroundHeight# - #IconSize#) / 2) - (#TooltipFontSize# + 20) + 40)"),
      ("hidden", "1"), ("dynamicvariables", "1")]⟩
  else
    ⟨ttBG i,
     [("meter", "Shape"),
      ("shape", "Rectangle 0,0,(#BackgroundWidth# - 4),(#TooltipFontSize# + 16),5 | Fill Color #BackgroundColor#,200 | StrokeWidth 0"),
      ("x", "2"),
      ("y", "(#PadTop# + " ++ natRepr i ++ " * (#IconSize# + #VerticalGap#) + (#IconSize# / 2) - (#TooltipFontSize# / 2) - 4)"),
      ("hidden", "1"), ("dynamicvariables", "1")]⟩

/-- The tooltip text helper section for index i. -/
def ttTextSection (i : Nat) (display : String) (isHoriz : Bool) : IniSection :=
  if isHoriz then
    ⟨ttText i,
     [("meter", "String"), ("text", display), ("fontcolor", "255,255,255,255"),
      ("fontsize", "#TooltipFontSize#"), ("fontface", "#TooltipFont#"), ("stringalign", "Center"),
      ("x", "(#PadLeft# + " ++ natRepr i ++ " * (#IconSize# + #HorizontalGap#) + (#IconSize# / 2))"),
      ("y", "(((#BackgroundHeight# - #IconSize#) / 2) - (#TooltipFontSize# + 16) + 40)"),
      ("hidden", "1"), ("dynamicvariables", "1")]⟩
  else
    ⟨ttText i,
     [("meter", "String"), ("text", display), ("fontcolor", "255,255,255,255"),
      ("fontsize", "#TooltipFontSize#"), ("fontface", "#TooltipFont#"), ("stringalign", "Center"),
      ("x", "(#BackgroundWidth# / 2)"),
      ("y", "(#PadTop# + " ++ natRepr i ++ " * (#IconSize# + #VerticalGap#) + (#IconSize# / 2) - (#TooltipFontSize# / 2))"),
      ("hidden", "1"), ("dynamicvariables", "1")]⟩

/-- The sections _add_entry_to_config appends for one entry when no name
collision occurs: the entry section, followed by the two tooltip helper
sections when tooltips are on and the entry is not a separator. -/
def blockFor (nm : String) (e : DockEntry) (i : Nat) (s : AppearanceSettings) : Config :=
  if e.is_separator || !s.tooltips then [entrySectionFor nm e i s]
  else
    [entrySectionFor nm e i s,
     ttBGSection i (s.orientation == "Horizontal"),
     ttTextSection i e.name (s.orientation == "Horizontal")]

/-- The blocks appended by the fold of _add_entry_to_config, replayed from a
start configuration. -/
def blocksOf (s : AppearanceSettings) : Config → Nat → List DockEntry → Config
  | _, _, [] => []
  | c, i, e :: rest =>
    blockFor (assignedSectionName c e) e i s ++
      blocksOf s (addEntryToConfig c e i s) (i + 1) rest

/-- Invariant of the serializer fold: every section whose name looks like a
tooltip helper is one of the helpers already emitted for an index below i. -/
def configInv (c : Config) (i : Nat) : Prop :=
  ∀ sec ∈ c, strStartsWith sec.name "999_Tooltip_" = true →
    ∃ j, j < i ∧ (sec.name = ttBG j ∨ sec.name = ttText j)

/-- Specification-side restatement of the sanitize rule (claim C8), built
from library combinators: replace every character that is not a letter,
digit or underscore by an underscore, collapse runs of consecutive
underscores into one (List.destutter), remove leading and trailing
underscores, and return the literal "Entry" when the result would otherwise
be empty. -/
def sanitizeSpec (name : String) : String :=
  let replaced := name.data.map (fun c =>
    if ('a' ≤ c ∧ c ≤ 'z') ∨ ('A' ≤ c ∧ c ≤ 'Z') ∨ ('0' ≤ c ∧ c ≤ '9') ∨ c = '_' then c else '_')
  let collapsed := List.destutter (fun a b => ¬(a = '_' ∧ b = '_')) replaced
  let stripped := ((collapsed.dropWhile (fun c => c = '_')).reverse.dropWhile (fun c => c = '_')).reverse
  if stripped = [] then "Entry" else String.mk stripped

/-- Weaker replay condition: no section name assigned to an entry matches
the tooltip helper pattern (such a name would be clobbered by
_create_tooltip_sections or skipped by the loader). -/
def namesOkAux (s : AppearanceSettings) : Config → Nat → List DockEntry → Bool
  | _, _, [] => true
  | c, i, e :: rest =>
    !strStartsWith (assignedSectionName c e) "999_Tooltip_" &&
      namesOkAux s (addEntryToConfig c e i s) (i + 1) rest

/-- Path condition that only the interactive validator inspects: a
non-separator with an empty (or literally `""`) app path, or any entry with
an empty (or literally `""`) icon path. -/
def badPathB (e : DockEntry) : Bool :=
  (!e.is_separator && (stripWS e.app_path == "" || e.app_path == "\"\"")) ||
    (stripWS e.icon_path == "" || e.icon_path == "\"\"")

/-! Lemmas about the editor operations (auto-save never touches the entry
list; failures only change the status line). -/

theorem autoSave_entries (desc : String) (io : Except String Unit) (st : ManagerState) :
    (autoSaveAndRefresh desc io st).entries = st.entries := by
  unfold autoSaveAndRefresh
  cases saveIniSilentResult st <;> cases io <;> rfl

theorem autoSave_selected (desc : String) (io : Except String Unit) (st : ManagerState) :
    (autoSaveAndRefresh desc io st).selectedEntryIndex = st.selectedEntryIndex := by
  unfold autoSaveAndRefresh
  cases saveIniSilentResult st <;> cases io <;> rfl

theorem autoSave_status_error (desc m : String) (st : ManagerState)
    (h : saveIniSilentResult st = Except.ok ()) :
    (autoSaveAndRefresh desc (Except.error m) st).status =
      desc ++ " but failed to apply changes: " ++ m := by
  unfold autoSaveAndRefresh
  rw [h]

/-- C7: every mutating entry operation (add entry, add separator, update,
remove, move) applies its mutation to the in-memory entry list regardless of
the outcome io of the automatic persist and engine reload (no rollback), and
a failing persist after a valid mutation is reported through the status
message. -/
theorem c7_mutation_not_rolled_back
    (st : ManagerState) (io : Except String Unit) (msg f baseDir nmF apF ipF : String)
    (d : Int) (idx : Nat) :
    (st.iniFile = some f →
      (addEntryOp io st).entries = st.entries ++ [newEntryDefault] ∧
      (validateEntries (fun _ => false) (st.entries ++ [newEntryDefault]) false = Except.ok true →
        (addEntryOp (Except.error msg) st).status =
          "Added new entry but failed to apply changes: " ++ msg)) ∧
    (st.iniFile = some f →
      (addSeparatorOp baseDir io st).entries =
        st.entries ++
          [⟨"Separator_" ++ natRepr ((st.entries.filter (fun e => e.is_separator)).length + 1),
            "\"\"", separatorIconPath baseDir, true⟩]) ∧
    (st.selectedEntryIndex = some idx → stripWS nmF ≠ "" →
      (updateEntryOp nmF apF ipF io st).entries =
        st.entries.set idx ⟨stripWS nmF, apF, ipF, strStartsWith (stripWS nmF) "Separator_"⟩) ∧
    (st.selectedEntryIndex = some idx →
      (removeEntryOp true io st).entries = st.entries.eraseIdx idx) ∧
    (st.selectedEntryIndex = some idx → 0 ≤ (idx : Int) + d →
      (idx : Int) + d < (st.entries.length : Int) →
      (moveEntryOp d io st).entries =
        (st.entries.set idx (st.entries.getD ((idx : Int) + d).toNat ⟨"", "", "", false⟩)).set
          ((idx : Int) + d).toNat (st.entries.getD idx ⟨"", "", "", false⟩)) := by
  refine ⟨?_, ?_, ?_, ?_, ?_⟩
  · intro h
    constructor
    · unfold addEntryOp
      rw [h]
      exact autoSave_entries _ _ _
    · intro hval
      unfold addEntryOp
      rw [h]
      apply autoSave_status_error
      unfold saveIniSilentResult
      simp only [h, hval]
  · intro h
    unfold addSeparatorOp
    rw [h]
    exact autoSave_entries _ _ _
  · intro h hnm
    simp only [updateEntryOp, h]
    rw [if_neg hnm]
    exact autoSave_entries _ _ _
  · intro h
    simp only [removeEntryOp, h, Bool.not_true, Bool.false_eq_true, if_false]
    exact autoSave_entries _ _ _
  · intro h h0 h1
    simp only [moveEntryOp, h]
    rw [if_pos ⟨h0, h1⟩]
    exact autoSave_entries _ _ _

/-- Witness for c7_mutation_not_rolled_back at a concrete state with a
failing persist. -/
theorem c7_mutation_not_rolled_back_witness :
    (addEntryOp (Except.error "boom")
        (ManagerState.mk (some "LuckyDock1.ini") [DockEntry.mk "A" "\"a.exe\"" "i.png" false]
          (some 0) "Ready")).entries =
      [DockEntry.mk "A" "\"a.exe\"" "i.png" false] ++ [newEntryDefault] ∧
    (addEntryOp (Except.error "boom")
        (ManagerState.mk (some "LuckyDock1.ini") [DockEntry.mk "A" "\"a.exe\"" "i.png" false]
          (some 0) "Ready")).status =
      "Added new entry but failed to apply changes: " ++ "boom" ∧
    (removeEntryOp true (Except.error "boom")
        (ManagerState.mk (some "LuckyDock1.ini") [DockEntry.mk "A" "\"a.exe\"" "i.png" false]
          (some 0) "Ready")).entries =
      [DockEntry.mk "A" "\"a.exe\"" "i.png" false].eraseIdx 0 := by
  have h := c7_mutation_not_rolled_back
    (ManagerState.mk (some "LuckyDock1.ini") [DockEntry.mk "A" "\"a.exe\"" "i.png" false]
      (some 0) "Ready")
    (Except.error "boom") "boom" "LuckyDock1.ini" "" "" "" "" 1 0
  exact ⟨(h.1 rfl).1, (h.1 rfl).2 (by rfl), h.2.2.2.1 rfl⟩

/-! Decimal representation: correctness and injectivity, needed for the
uniqueness of the generated section-name suffixes. -/

theorem digitChar_val : ∀ d : Nat, d < 10 → (Nat.digitChar d).toNat - 48 = d := by decide

theorem digitsVal_natReprAux :
    ∀ fuel n a, n < fuel →
      List.foldl (fun x c => 10 * x + (c.toNat - 48)) a (natReprAux fuel n) =
        a * 10 ^ (natReprAux fuel n).length + n := by
  intro fuel
  induction fuel with
  | zero => intro n a h; omega
  | succ fuel ih =>
    intro n a h
    by_cases h0 : n = 0
    · subst h0
      simp [natReprAux]
    · have hrec : n / 10 < fuel := by
        have : n / 10 < n := Nat.div_lt_self (Nat.pos_of_ne_zero h0) (by omega)
        omega
      have hmod : n % 10 < 10 := Nat.mod_lt _ (by omega)
      rw [show natReprAux (fuel + 1) n = natReprAux fuel (n / 10) ++ [Nat.digitChar (n % 10)] by
        simp [natReprAux, h0]]
      rw [List.foldl_append, ih (n / 10) a hrec]
      simp only [List.foldl, List.length_append, List.length_singleton]
      rw [digitChar_val _ hmod]
      have hd : n = 10 * (n / 10) + n % 10 := (Nat.div_add_mod n 10).symm
      have hp : a * 10 ^ ((natReprAux fuel (n / 10)).length + 1) =
          10 * (a * 10 ^ (natReprAux fuel (n / 10)).length) := by ring
      omega

theorem digitsVal_natRepr (n : Nat) (h : n ≠ 0) :
    List.foldl (fun x c => 10 * x + (c.toNat - 48)) 0 (natRepr n).data = n := by
  rw [natRepr, if_neg h]
  have := digitsVal_natReprAux (n + 1) n 0 (by omega)
  simpa using this

theorem natRepr_injective : Function.Injective natRepr := by
  intro m n h
  by_cases hm : m = 0 <;> by_cases hn : n = 0
  · omega
  · exfalso
    have hdn := digitsVal_natRepr n hn
    rw [← h, hm] at hdn
    simp [natRepr] at hdn
    omega
  · exfalso
    have hdm := digitsVal_natRepr m hm
    rw [h, hn] at hdm
    simp [natRepr] at hdm
    omega
  · have hdm := digitsVal_natRepr m hm
    have hdn := digitsVal_natRepr n hn
    rw [h] at hdm
    rw [hdm] at hdn
    omega

theorem candidate_injective (orig : String) :
    Function.Injective (fun k => orig ++ "_" ++ natRepr k) := by
  intro k₁ k₂ h
  apply natRepr_injective
  apply String.ext
  have : (orig ++ "_" ++ natRepr k₁).data = (orig ++ "_" ++ natRepr k₂).data :=
    congrArg String.data h
  rw [String.data_append, String.data_append, String.data_append, String.data_append] at this
  rw [List.append_assoc, List.append_assoc] at this
  exact List.append_cancel_left (List.append_cancel_left this)

theorem uniqueNameAux_not_mem (orig : String) (secs : List String) :
    ∀ fuel k,
      (∃ j, k ≤ j ∧ j < k + fuel ∧ secs.contains (orig ++ "_" ++ natRepr j) = false) →
      secs.contains (uniqueNameAux orig secs fuel k) = false := by
  intro fuel
  induction fuel with
  | zero =>
    intro k ⟨j, h1, h2, _⟩
    omega
  | succ fuel ih =>
    intro k ⟨j, h1, h2, h3⟩
    rw [uniqueNameAux]
    by_cases hc : secs.contains (orig ++ "_" ++ natRepr k) = true
    · simp only [hc, if_true]
      apply ih (k + 1)
      refine ⟨j, ?_, by omega, h3⟩
      rcases Nat.eq_or_lt_of_le h1 with heq | hlt
      · exfalso
        rw [heq] at hc
        rw [h3] at hc
        exact Bool.false_ne_true hc
      · omega
    · simp only [Bool.not_eq_true] at hc
      simp only [hc, if_false]
      exact hc

theorem exists_free_candidate (orig : String) (secs : List String) :
    ∃ j, 1 ≤ j ∧ j < 1 + (secs.length + 1) ∧
      secs.contains (orig ++ "_" ++ natRepr j) = false := by
  by_contra hcon
  push_neg at hcon
  have hall : ∀ t, t < secs.length + 1 → (orig ++ "_" ++ natRepr (t + 1)) ∈ secs := by
    intro t ht
    have := hcon (t + 1) (by omega) (by omega)
    rw [← List.elem_iff]
    exact Bool.of_not_eq_false this
  have hnodup : ((List.range (secs.length + 1)).map (fun t => orig ++ "_" ++ natRepr (t + 1))).Nodup := by
    apply (List.nodup_range _).map
    intro a b hab
    have := candidate_injective orig hab
    omega
  have hsub : ((List.range (secs.length + 1)).map (fun t => orig ++ "_" ++ natRepr (t + 1))) ⊆ secs := by
    intro x hx
    rw [List.mem_map] at hx
    obtain ⟨t, ht, rfl⟩ := hx
    exact hall t (List.mem_range.mp ht)
  have := (List.subperm_of_subset hnodup hsub).length_le
  simp at this

theorem uniqueSectionName_not_mem (orig : String) (secs : List String) :
    secs.contains (uniqueSectionName orig secs) = false := by
  unfold uniqueSectionName
  by_cases hc : secs.contains orig = true
  · simp only [hc, if_true]
    exact uniqueNameAux_not_mem orig secs (secs.length + 1) 1 (exists_free_candidate orig secs)
  · simp only [Bool.not_eq_true] at hc
    simp only [hc, if_false]
    exact hc

theorem assignedSectionName_not_mem (c : Config) (e : DockEntry) :
    assignedSectionName c e ∉ sectionNames c := by
  intro hmem
  have h1 : (sectionNames c).contains (assignedSectionName c e) = true :=
    List.elem_iff.mpr hmem
  unfold assignedSectionName at h1
  rw [uniqueSectionName_not_mem] at h1
  exact Bool.false_ne_true h1

/-! Structural lemmas about the configparser operations. -/

theorem setSectionItems_fresh (sec : String) (opts : List (String × String)) :
    ∀ c : Config, sec ∉ sectionNames c → setSectionItems sec opts c = c ++ [⟨sec, opts⟩] := by
  intro c
  induction c with
  | nil => intro _; rfl
  | cons s rest ih =>
    intro h
    simp only [sectionNames, List.map_cons, List.mem_cons, not_or] at h
    rw [setSectionItems, if_neg (by simp only [beq_iff_eq]; exact fun he => h.1 he.symm)]
    rw [ih (by simpa [sectionNames] using h.2)]
    rfl

theorem setOpt_fresh_mid (sec key val : String) (o : List (String × String)) :
    ∀ (c rest : Config), sec ∉ sectionNames c →
      setOpt sec key val (c ++ ⟨sec, o⟩ :: rest) = c ++ ⟨sec, setPair key val o⟩ :: rest := by
  intro c
  induction c with
  | nil =>
    intro rest _
    simp [setOpt]
  | cons s c' ih =>
    intro rest h
    simp only [sectionNames, List.map_cons, List.mem_cons, not_or] at h
    rw [List.cons_append, setOpt, if_neg (by simp only [beq_iff_eq]; exact fun he => h.1 he.symm)]
    rw [ih rest (by simpa [sectionNames] using h.2)]
    rfl

theorem setOpt_not_mem (sec key val : String) :
    ∀ c : Config, sec ∉ sectionNames c → setOpt sec key val c = c := by
  intro c
  induction c with
  | nil => intro _; rfl
  | cons s c' ih =>
    intro h
    simp only [sectionNames, List.map_cons, List.mem_cons, not_or] at h
    rw [setOpt, if_neg (by simp only [beq_iff_eq]; exact fun he => h.1 he.symm)]
    rw [ih (by simpa [sectionNames] using h.2)]

theorem sectionNames_setOpt (sec key val : String) :
    ∀ c : Config, sectionNames (setOpt sec key val c) = sectionNames c := by
  intro c
  induction c with
  | nil => rfl
  | cons s c' ih =>
    rw [setOpt]
    by_cases hn : (s.name == sec) = true
    · rw [if_pos hn]; rfl
    · rw [if_neg hn]
      simp only [sectionNames, List.map_cons] at ih ⊢
      rw [ih]

theorem setOpt_mem_left (sec key val : String) :
    ∀ (A B : Config), sec ∈ sectionNames A →
      setOpt sec key val (A ++ B) = setOpt sec key val A ++ B := by
  intro A
  induction A with
  | nil => intro B h; simp [sectionNames] at h
  | cons s A' ih =>
    intro B h
    rw [List.cons_append, setOpt, setOpt]
    by_cases hn : (s.name == sec) = true
    · rw [if_pos hn, if_pos hn]; rfl
    · rw [if_neg hn, if_neg hn, List.cons_append]
      have hne : sec ≠ s.name := by
        intro he
        exact hn (by simp [beq_iff_eq, he])
      simp only [sectionNames, List.map_cons, List.mem_cons] at h
      rcases h with h | h
      · exact absurd h hne
      · rw [ih B (by simpa [sectionNames] using h)]

theorem getOpt_append_left (sec key : String) (A B : Config) (h : sec ∈ sectionNames A) :
    getOpt (A ++ B) sec key = getOpt A sec key := by
  induction A with
  | nil => simp [sectionNames] at h
  | cons s A' ih =>
    rw [List.cons_append]
    unfold getOpt
    rw [List.find?]
    by_cases hn : (s.name == sec) = true
    · rw [hn]
      rw [show List.find? (fun s => s.name == sec) (s :: A') = some s by
        rw [List.find?]; rw [hn]]
    · simp only [Bool.not_eq_true] at hn
      rw [hn]
      rw [show List.find? (fun s => s.name == sec) (s :: A') =
            List.find? (fun s => s.name == sec) A' by
        rw [List.find?]; rw [hn]]
      have hmem : sec ∈ sectionNames A' := by
        simp only [sectionNames, List.map_cons, List.mem_cons] at h
        rcases h with h | h
        · exfalso
          rw [h] at hn
          simp at hn
        · exact h
      have := ih hmem
      unfold getOpt at this
      exact this

theorem writeThenRead_append (A B : Config) :
    writeThenRead (A ++ B) = writeThenRead A ++ writeThenRead B := by
  simp [writeThenRead]

theorem loadEntries_append (A B : Config) :
    loadEntriesFromIni (A ++ B) = loadEntriesFromIni A ++ loadEntriesFromIni B := by
  simp [loadEntriesFromIni]

theorem loadEntries_excluded (A : Config)
    (h : ∀ sec ∈ A, shouldExcludeSection sec.name = true) : loadEntriesFromIni A = [] := by
  induction A with
  | nil => rfl
  | cons s A' ih =>
    unfold loadEntriesFromIni
    rw [List.filterMap_cons]
    rw [if_pos (h s (List.mem_cons_self s A'))]
    exact ih (fun sec hs => h sec (List.mem_cons_of_mem s hs))

theorem not_mem_names_append_single (x : String) (c : Config) (sec : IniSection)
    (h1 : x ∉ sectionNames c) (h2 : x ≠ sec.name) : x ∉ sectionNames (c ++ [sec]) := by
  intro hx
  rw [sectionNames, List.map_append] at hx
  rcases List.mem_append.mp hx with h | h
  · exact h1 h
  · simp only [List.map_cons, List.map_nil, List.mem_singleton] at h
    exact h2 h

theorem not_mem_names_pair (x : String) (c : Config) (s₁ s₂ : IniSection)
    (h1 : x ∉ sectionNames c) (h2 : x ≠ s₁.name) (h3 : x ≠ s₂.name) :
    x ∉ sectionNames (c ++ [s₁, s₂]) := by
  intro hx
  rw [sectionNames, List.map_append] at hx
  rcases List.mem_append.mp hx with h | h
  · exact h1 h
  · simp only [List.map_cons, List.map_nil, List.mem_cons, List.not_mem_nil, or_false] at h
    rcases h with h | h
    · exact h2 h
    · exact h3 h

theorem ttBG_ne_ttText (i j : Nat) : ttBG i ≠ ttText j := by
  intro h
  have hd := congrArg String.data h
  unfold ttBG ttText at hd
  rw [String.data_append, String.data_append, String.data_append, String.data_append] at hd
  have hrev := congrArg List.reverse hd
  rw [List.reverse_append, List.reverse_append] at hrev
  simp at hrev

theorem addEntry_structure (c : Config) (e : DockEntry) (i : Nat) (s : AppearanceSettings)
    (hbg : ttBG i ∉ sectionNames c) (htx : ttText i ∉ sectionNames c)
    (hbgn : ttBG i ≠ assignedSectionName c e) (htxn : ttText i ≠ assignedSectionName c e) :
    addEntryToConfig c e i s = c ++ blockFor (assignedSectionName c e) e i s := by
  have hnm : assignedSectionName c e ∉ sectionNames c := assignedSectionName_not_mem c e
  unfold addEntryToConfig blockFor entrySectionFor addMouseActions addHoverActions
    createTooltipSections
  dsimp only
  rw [setSectionItems_fresh _ _ _ hnm]
  rw [setOpt_fresh_mid _ _ _ _ _ _ hnm]
  rw [setOpt_fresh_mid _ _ _ _ _ _ hnm]
  rw [setOpt_fresh_mid _ _ _ _ _ _ hnm]
  rw [setOpt_fresh_mid _ _ _ _ _ _ hnm]
  rw [setOpt_fresh_mid _ _ _ _ _ _ hnm]
  rw [setOpt_fresh_mid _ _ _ _ _ _ hnm]
  cases hor : (s.orientation == "Horizontal") <;>
    cases hsep : e.is_separator <;>
      cases hdc : s.double_click <;>
        cases htool : s.tooltips <;>
          simp only [Bool.false_eq_true, if_false, if_true, Bool.true_or, Bool.false_or,
            Bool.not_false, Bool.not_true, Bool.or_false, Bool.or_true] <;>
  · first
    | (rw [setOpt_fresh_mid _ _ _ _ _ _ hnm, setOpt_fresh_mid _ _ _ _ _ _ hnm,
          setOpt_fresh_mid _ _ _ _ _ _ hnm]
       rfl)
    | (rw [setOpt_fresh_mid _ _ _ _ _ _ hnm, setOpt_fresh_mid _ _ _ _ _ _ hnm,
          setOpt_fresh_mid _ _ _ _ _ _ hnm, setOpt_fresh_mid _ _ _ _ _ _ hnm,
          setOpt_fresh_mid _ _ _ _ _ _ hnm, setOpt_fresh_mid _ _ _ _ _ _ hnm]
       rfl)
    | (rw [setOpt_fresh_mid _ _ _ _ _ _ hnm, setOpt_fresh_mid _ _ _ _ _ _ hnm,
          setOpt_fresh_mid _ _ _ _ _ _ hnm,
          setSectionItems_fresh _ _ _ (not_mem_names_append_single _ _ _ hbg hbgn),
          List.append_assoc, List.cons_append, List.nil_append,
          setSectionItems_fresh _ _ _
            (not_mem_names_pair _ _ _ _ htx htxn (ttBG_ne_ttText i i).symm)]
       simp only [List.append_assoc, List.cons_append, List.nil_append]
       rw [setOpt_fresh_mid _ _ _ _ _ _ hnm, setOpt_fresh_mid _ _ _ _ _ _ hnm,
          setOpt_fresh_mid _ _ _ _ _ _ hnm]
       rfl)

theorem ttBG_inj (i j : Nat) (h : ttBG i = ttBG j) : i = j := by
  unfold ttBG at h
  have hd := congrArg String.data h
  rw [String.data_append, String.data_append, String.data_append, String.data_append] at hd
  rw [List.append_assoc, List.append_assoc] at hd
  exact natRepr_injective (String.ext
    (List.append_cancel_right (List.append_cancel_left hd)))

theorem ttText_inj (i j : Nat) (h : ttText i = ttText j) : i = j := by
  unfold ttText at h
  have hd := congrArg String.data h
  rw [String.data_append, String.data_append, String.data_append, String.data_append] at hd
  rw [List.append_assoc, List.append_assoc] at hd
  exact natRepr_injective (String.ext
    (List.append_cancel_right (List.append_cancel_left hd)))

theorem strStartsWith_append (p t : String) : strStartsWith (p ++ t) p = true := by
  unfold strStartsWith
  rw [String.data_append, List.isPrefixOf_iff_prefix]
  exact List.prefix_append p.data t.data

theorem ttBG_starts (i : Nat) : strStartsWith (ttBG i) "999_Tooltip_" = true := by
  unfold ttBG
  rw [String.append_assoc]
  exact strStartsWith_append _ _

theorem ttText_starts (i : Nat) : strStartsWith (ttText i) "999_Tooltip_" = true := by
  unfold ttText
  rw [String.append_assoc]
  exact strStartsWith_append _ _

theorem shouldExclude_false_not999 (x : String) (h : shouldExcludeSection x = false) :
    strStartsWith x "999_Tooltip_" = false := by
  unfold shouldExcludeSection at h
  simp only [Bool.or_eq_false_iff] at h
  exact h.2

theorem shouldExclude_false_not_excluded (x : String) (h : shouldExcludeSection x = false) :
    excludedSectionsList.contains x = false := by
  unfold shouldExcludeSection at h
  simp only [Bool.or_eq_false_iff] at h
  exact h.1.1.1

theorem ttBGSection_name (i : Nat) (b : Bool) : (ttBGSection i b).name = ttBG i := by
  cases b <;> rfl

theorem ttTextSection_name (i : Nat) (d : String) (b : Bool) :
    (ttTextSection i d b).name = ttText i := by
  cases b <;> rfl

theorem entrySectionFor_name (nm : String) (e : DockEntry) (i : Nat) (s : AppearanceSettings) :
    (entrySectionFor nm e i s).name = nm := rfl

theorem blockFor_names (nm : String) (e : DockEntry) (i : Nat) (s : AppearanceSettings) :
    ∀ sec ∈ blockFor nm e i s, sec.name = nm ∨ sec.name = ttBG i ∨ sec.name = ttText i := by
  intro sec hsec
  unfold blockFor at hsec
  by_cases hc : (e.is_separator || !s.tooltips) = true
  · rw [if_pos hc] at hsec
    rw [List.mem_singleton] at hsec
    left
    rw [hsec]
    rfl
  · rw [if_neg hc] at hsec
    simp only [List.mem_cons, List.not_mem_nil, or_false] at hsec
    rcases hsec with h | h | h
    · left; rw [h]; rfl
    · right; left; rw [h, ttBGSection_name]
    · right; right; rw [h, ttTextSection_name]

theorem inv_fresh_bg (c : Config) (i : Nat) (hinv : configInv c i) :
    ttBG i ∉ sectionNames c := by
  intro hmem
  rw [sectionNames, List.mem_map] at hmem
  obtain ⟨sec, hsec, hname⟩ := hmem
  obtain ⟨j, hj, hcase⟩ := hinv sec hsec (by rw [hname]; exact ttBG_starts i)
  rcases hcase with h | h
  · exact absurd (ttBG_inj i j (hname.symm.trans h)) (by omega)
  · exact (ttBG_ne_ttText i j) (hname.symm.trans h)

theorem inv_fresh_text (c : Config) (i : Nat) (hinv : configInv c i) :
    ttText i ∉ sectionNames c := by
  intro hmem
  rw [sectionNames, List.mem_map] at hmem
  obtain ⟨sec, hsec, hname⟩ := hmem
  obtain ⟨j, hj, hcase⟩ := hinv sec hsec (by rw [hname]; exact ttText_starts i)
  rcases hcase with h | h
  · exact (ttBG_ne_ttText j i) (h.symm.trans hname)
  · exact absurd (ttText_inj i j (hname.symm.trans h)) (by omega)

theorem configInv_append_block (c : Config) (i : Nat) (nm : String) (e : DockEntry)
    (s : AppearanceSettings) (hinv : configInv c i)
    (hnm : strStartsWith nm "999_Tooltip_" = false) :
    configInv (c ++ blockFor nm e i s) (i + 1) := by
  intro sec hsec hstart
  rcases List.mem_append.mp hsec with h | h
  · obtain ⟨j, hj, hc⟩ := hinv sec h hstart
    exact ⟨j, by omega, hc⟩
  · rcases blockFor_names nm e i s sec h with hn | hn | hn
    · rw [hn] at hstart
      rw [hstart] at hnm
      exact absurd hnm (by simp)
    · exact ⟨i, by omega, Or.inl hn⟩
    · exact ⟨i, by omega, Or.inr hn⟩

theorem excluded_not999 (x : String) (h : excludedSectionsList.contains x = true) :
    strStartsWith x "999_Tooltip_" = false := by
  have hx : x ∈ excludedSectionsList := List.elem_iff.mp h
  unfold excludedSectionsList at hx
  simp only [List.mem_cons, List.not_mem_nil, or_false] at hx
  rcases hx with rfl | rfl | rfl | rfl | rfl | rfl | rfl <;> decide

theorem removeEntry_sections_excluded (c : Config) :
    ∀ sec ∈ removeEntrySections c, excludedSectionsList.contains sec.name = true := by
  intro sec hsec
  exact (List.mem_filter.mp hsec).2

theorem configInv_of_excluded (c : Config)
    (h : ∀ sec ∈ c, excludedSectionsList.contains sec.name = true) : configInv c 0 := by
  intro sec hsec hstart
  exfalso
  have hne := excluded_not999 sec.name (h sec hsec)
  rw [hstart] at hne
  exact absurd hne (by simp)

theorem entryCondB_parts (nm : String) (e : DockEntry) (h : entryCondB nm e = true) :
    shouldExcludeSection nm = false ∧ stripWS e.name = e.name ∧
    stripWS e.icon_path = e.icon_path ∧
    e.is_separator = (strStartsWith e.name "Separator_" || strStartsWith nm "Separator_") ∧
    (e.is_separator = false → wellQuoted e.app_path = true) := by
  unfold entryCondB at h
  simp only [Bool.and_eq_true, Bool.not_eq_true', beq_iff_eq, Bool.or_eq_true] at h
  obtain ⟨⟨⟨⟨h1, h2⟩, h3⟩, h4⟩, h5⟩ := h
  refine ⟨h1, h2, h3, ?_, ?_⟩
  · rw [h4]
  · intro hsep
    rcases h5 with h5 | h5
    · rw [hsep] at h5
      exact absurd h5 (by simp)
    · exact h5

theorem safeAux_imp_namesOk (s : AppearanceSettings) :
    ∀ (es : List DockEntry) (c : Config) (i : Nat),
      safeAux s c i es = true → namesOkAux s c i es = true := by
  intro es
  induction es with
  | nil => intro c i _; rfl
  | cons e rest ih =>
    intro c i hsafe
    rw [safeAux] at hsafe
    simp only [Bool.and_eq_true] at hsafe
    rw [namesOkAux]
    simp only [Bool.and_eq_true]
    constructor
    · simp only [Bool.not_eq_true']
      exact shouldExclude_false_not999 _ (entryCondB_parts _ _ hsafe.1).1
    · exact ih _ _ hsafe.2

theorem addAll_structure (s : AppearanceSettings) :
    ∀ (es : List DockEntry) (c : Config) (i : Nat),
      configInv c i → namesOkAux s c i es = true →
      addAllEntries s c i es = c ++ blocksOf s c i es := by
  intro es
  induction es with
  | nil => intro c i _ _; simp [addAllEntries, blocksOf]
  | cons e rest ih =>
    intro c i hinv hsafe
    rw [namesOkAux] at hsafe
    simp only [Bool.and_eq_true] at hsafe
    obtain ⟨hcond, hsafe'⟩ := hsafe
    have hnm999 : strStartsWith (assignedSectionName c e) "999_Tooltip_" = false := by
      simpa using hcond
    have hbg := inv_fresh_bg c i hinv
    have htx := inv_fresh_text c i hinv
    have hbgn : ttBG i ≠ assignedSectionName c e := by
      intro h
      have hs := ttBG_starts i
      rw [h, hnm999] at hs
      exact Bool.false_ne_true hs
    have htxn : ttText i ≠ assignedSectionName c e := by
      intro h
      have hs := ttText_starts i
      rw [h, hnm999] at hs
      exact Bool.false_ne_true hs
    have hstruct := addEntry_structure c e i s hbg htx hbgn htxn
    rw [addAllEntries, blocksOf, hstruct]
    rw [hstruct] at hsafe'
    rw [ih (c ++ blockFor (assignedSectionName c e) e i s) (i + 1)
      (configInv_append_block c i _ e s hinv hnm999) hsafe']
    rw [List.append_assoc]

/-! String-stripping and action-string extraction lemmas used by the
round-trip proof. -/

theorem stripWSList_eq_self (l : List Char)
    (h1 : ∀ c, l.head? = some c → pyIsSpace c = false)
    (h2 : ∀ c, l.reverse.head? = some c → pyIsSpace c = false) : stripWSList l = l := by
  unfold stripWSList
  have hd : l.dropWhile pyIsSpace = l := by
    cases l with
    | nil => rfl
    | cons a t =>
      rw [List.dropWhile_cons, h1 a rfl]
      simp
  rw [hd]
  have hrev : l.reverse.dropWhile pyIsSpace = l.reverse := by
    cases hr : l.reverse with
    | nil => rfl
    | cons a t =>
      rw [List.dropWhile_cons, h2 a (by rw [hr]; rfl)]
      simp
  rw [hrev, List.reverse_reverse]

theorem stripWS_eq_self (s : String)
    (h1 : ∀ c, s.data.head? = some c → pyIsSpace c = false)
    (h2 : ∀ c, s.data.reverse.head? = some c → pyIsSpace c = false) : stripWS s = s := by
  unfold stripWS
  rw [stripWSList_eq_self s.data h1 h2]

theorem reverse_head?_append (l₁ l₂ : List Char) (h : l₂ ≠ []) :
    (l₁ ++ l₂).reverse.head? = l₂.reverse.head? := by
  rw [List.reverse_append]
  cases hr : l₂.reverse with
  | nil =>
    exfalso
    apply h
    have := congrArg List.reverse hr
    simpa using this
  | cons a t => simp

theorem stripWS_mouseAction (ap nm : String) :
    stripWS (mouseAction ap nm) = mouseAction ap nm := by
  apply stripWS_eq_self
  · intro c hc
    unfold mouseAction at hc
    rw [String.data_append, String.data_append, String.data_append, String.data_append] at hc
    simp only [List.append_assoc, List.singleton_append, List.head?_cons] at hc
    cases hc
    rfl
  · intro c hc
    unfold mouseAction at hc
    rw [String.data_append, String.data_append, String.data_append, String.data_append] at hc
    rw [reverse_head?_append _ _ (by decide)] at hc
    rw [show (("\"][!CommandMeasure MeasureFlash \"Execute 1\"]" : String).data.reverse.head?) =
          some ']' from rfl] at hc
    cases hc
    rfl

theorem dropWhile_nonquote (mid tail : List Char)
    (hmid : ∀ c ∈ mid, (c == '"') = false) :
    (mid ++ '"' :: tail).dropWhile (fun c => !(c == '"')) = '"' :: tail := by
  induction mid with
  | nil => simp [List.dropWhile_cons]
  | cons c m ih =>
    rw [List.cons_append, List.dropWhile_cons]
    rw [hmid c (List.mem_cons_self c m)]
    simp only [Bool.not_false, if_true]
    exact ih (fun x hx => hmid x (List.mem_cons_of_mem c hx))

theorem takeWhile_nonquote (mid tail : List Char)
    (hmid : ∀ c ∈ mid, (c == '"') = false) :
    (mid ++ '"' :: tail).takeWhile (fun c => !(c == '"')) = mid := by
  induction mid with
  | nil => simp [List.takeWhile_cons]
  | cons c m ih =>
    rw [List.cons_append, List.takeWhile_cons]
    rw [hmid c (List.mem_cons_self c m)]
    simp only [Bool.not_false, if_true]
    rw [ih (fun x hx => hmid x (List.mem_cons_of_mem c hx))]

theorem searchQuotedCmd_exact (mid tail : List Char)
    (hmid : ∀ c ∈ mid, (c == '"') = false) :
    searchQuotedCmd ('[' :: '"' :: (mid ++ '"' :: ']' :: tail)) = some mid := by
  rw [searchQuotedCmd]
  rw [dropWhile_nonquote mid (']' :: tail) hmid]
  rw [takeWhile_nonquote mid (']' :: tail) hmid]
  split
  · rfl
  · rename_i hcon
    exact (hcon tail rfl).elim

theorem wellQuoted_parts (ap : String) (h : wellQuoted ap = true) :
    ∃ mid, ap.data = '"' :: (mid ++ ['"']) ∧ ∀ c ∈ mid, (c == '"') = false := by
  unfold wellQuoted at h
  split at h
  · rename_i rest heq
    simp only [Bool.and_eq_true, Bool.not_eq_true', beq_iff_eq] at h
    have hne : rest ≠ [] := by
      intro hnil
      rw [hnil] at h
      exact absurd h.1.1 (by decide)
    refine ⟨rest.dropLast, ?_, ?_⟩
    · have hlast : rest.getLast hne = '"' := by
        have h2 := h.1.2
        rw [List.getLast?_eq_getLast rest hne] at h2
        exact Option.some_inj.mp h2
      rw [heq, ← hlast, List.dropLast_append_getLast hne]
    · intro x hx
      have h3 := h.2
      rw [List.all_eq_true] at h3
      have hxx := h3 x hx
      simp only [Bool.not_eq_true'] at hxx
      exact hxx
  · exact absurd h (by simp)

theorem search_mouseAction (ap nm : String) (h : wellQuoted ap = true) :
    ∃ mid, searchQuotedCmd (mouseAction ap nm).data = some mid ∧
      ("\"" ++ String.mk mid ++ "\"") = ap := by
  obtain ⟨mid, hdata, hmid⟩ := wellQuoted_parts ap h
  refine ⟨mid, ?_, ?_⟩
  · have hshape : (mouseAction ap nm).data = '[' :: '"' :: (mid ++ '"' :: ']' ::
        (("[!SetVariable CurrentIcon \"" : String).data ++ (nm.data ++
         ("\"][!CommandMeasure MeasureFlash \"Execute 1\"]" : String).data))) := by
      unfold mouseAction
      rw [String.data_append, String.data_append, String.data_append, String.data_append, hdata]
      simp
    rw [hshape]
    exact searchQuotedCmd_exact mid _ hmid
  · apply String.ext
    rw [String.data_append, String.data_append, hdata]
    simp

theorem shouldExclude_ttBG (i : Nat) : shouldExcludeSection (ttBG i) = true := by
  unfold shouldExcludeSection
  rw [ttBG_starts]
  simp

theorem shouldExclude_ttText (i : Nat) : shouldExcludeSection (ttText i) = true := by
  unfold shouldExcludeSection
  rw [ttText_starts]
  simp

theorem mouseAction_ne_empty (ap nm : String) : (mouseAction ap nm == "") = false := by
  simp only [beq_eq_false_iff_ne, ne_eq]
  intro h
  have := congrArg String.data h
  unfold mouseAction at this
  rw [String.data_append, String.data_append, String.data_append, String.data_append] at this
  simp at this

theorem mouseAction_ne_empty_eq (ap nm : String) : ¬(mouseAction ap nm = "") := by
  intro h
  have h2 := mouseAction_ne_empty ap nm
  rw [h] at h2
  simp at h2

theorem load_block (nm : String) (e : DockEntry) (i : Nat) (s : AppearanceSettings)
    (hcond : entryCondB nm e = true) :
    (loadEntriesFromIni (writeThenRead (blockFor nm e i s))).map entryObs = [entryObs e] := by
  obtain ⟨hex, hname, hicon, hflag, happ⟩ := entryCondB_parts nm e hcond
  have hflag' := hflag.symm
  cases hsepb : e.is_separator with
  | true =>
    rw [hsepb] at hflag'
    cases hor : (s.orientation == "Horizontal") <;>
      simp [blockFor, entrySectionFor, writeThenRead, loadEntriesFromIni, hsepb, hor, hex,
        List.lookup, extractAppPath, entryObs, hname, hicon, hflag']
  | false =>
    rw [hsepb] at hflag'
    obtain ⟨mid, hfind, hquote⟩ := search_mouseAction e.app_path nm (happ hsepb)
    cases hor : (s.orientation == "Horizontal") <;>
      cases hdc : s.double_click <;>
        cases htt : s.tooltips <;>
          simp [blockFor, entrySectionFor, ttBGSection, ttTextSection, writeThenRead,
            loadEntriesFromIni, hsepb, hor, hdc, htt, hex,
            shouldExclude_ttBG, shouldExclude_ttText, List.lookup, extractAppPath, entryObs,
            hname, hicon, hflag', stripWS_mouseAction, mouseAction_ne_empty,
            mouseAction_ne_empty_eq, hfind, hquote]

theorem load_blocks (s : AppearanceSettings) :
    ∀ (es : List DockEntry) (c : Config) (i : Nat),
      safeAux s c i es = true →
      (loadEntriesFromIni (writeThenRead (blocksOf s c i es))).map entryObs =
        es.map entryObs := by
  intro es
  induction es with
  | nil => intro c i _; rfl
  | cons e rest ih =>
    intro c i hsafe
    rw [safeAux] at hsafe
    simp only [Bool.and_eq_true] at hsafe
    rw [blocksOf, writeThenRead_append, loadEntries_append, List.map_append]
    rw [load_block _ _ _ _ hsafe.1, ih _ _ hsafe.2]
    rfl

theorem excluded_contains_shouldExclude (x : String)
    (h : excludedSectionsList.contains x = true) : shouldExcludeSection x = true := by
  unfold shouldExcludeSection
  rw [h]
  simp

theorem load_wtr_excluded (A : Config)
    (h : ∀ sec ∈ A, shouldExcludeSection sec.name = true) :
    loadEntriesFromIni (writeThenRead A) = [] := by
  apply loadEntries_excluded
  intro sec hsec
  unfold writeThenRead at hsec
  rw [List.mem_map] at hsec
  obtain ⟨sec0, hsec0, heq⟩ := hsec
  rw [← heq]
  exact h sec0 hsec0

theorem load_wtr_single_excluded (x : IniSection) (hex : shouldExcludeSection x.name = true) :
    loadEntriesFromIni (writeThenRead [x]) = [] :=
  load_wtr_excluded [x] (by intro sec hs; rw [List.mem_singleton] at hs; rw [hs]; exact hex)

theorem load_wtr_cons (x : IniSection) (l : Config) :
    loadEntriesFromIni (writeThenRead (x :: l)) =
      loadEntriesFromIni (writeThenRead [x]) ++ loadEntriesFromIni (writeThenRead l) := by
  rw [show (x :: l) = [x] ++ l from rfl, writeThenRead_append, loadEntries_append]

theorem load_setOpt_excluded (secName : String) (hex : shouldExcludeSection secName = true) :
    ∀ (key val : String) (c : Config),
      loadEntriesFromIni (writeThenRead (setOpt secName key val c)) =
        loadEntriesFromIni (writeThenRead c) := by
  intro key val c
  induction c with
  | nil => rfl
  | cons sec rest ih =>
    rw [setOpt]
    by_cases hn : (sec.name == secName) = true
    · rw [if_pos hn]
      have hname : sec.name = secName := by simpa [beq_iff_eq] using hn
      rw [load_wtr_cons]
      rw [load_wtr_single_excluded (IniSection.mk sec.name (setPair key val sec.opts))
            (by simpa [hname] using hex)]
      rw [show loadEntriesFromIni (writeThenRead (sec :: rest)) =
            loadEntriesFromIni (writeThenRead [sec]) ++ loadEntriesFromIni (writeThenRead rest)
          from load_wtr_cons _ _]
      rw [load_wtr_single_excluded sec (by rw [hname]; exact hex)]
    · rw [if_neg hn]
      rw [load_wtr_cons]
      rw [show loadEntriesFromIni (writeThenRead (sec :: rest)) =
            loadEntriesFromIni (writeThenRead [sec]) ++ loadEntriesFromIni (writeThenRead rest)
          from load_wtr_cons _ _]
      rw [ih]

theorem load_addSection_excluded (secName : String)
    (hex : shouldExcludeSection secName = true) (c : Config) :
    loadEntriesFromIni (writeThenRead (addSection c secName)) =
      loadEntriesFromIni (writeThenRead c) := by
  unfold addSection
  rw [writeThenRead_append, loadEntries_append]
  rw [load_wtr_single_excluded _ hex]
  simp

theorem load_updateVars (c : Config) (entries : List DockEntry) (s : AppearanceSettings) :
    loadEntriesFromIni (writeThenRead (updateConfigVariables c entries s)) =
      loadEntriesFromIni (writeThenRead c) := by
  have hv : shouldExcludeSection "Variables" = true := by decide
  unfold updateConfigVariables
  dsimp only
  generalize (if (s.orientation == "Horizontal") = true then "1" else "0") = v1
  generalize (if (s.orientation == "Horizontal") = true then "0" else "1") = v2
  generalize (if s.double_click = true then "1" else "0") = v3
  generalize (if s.tooltips = true then "1" else "0") = v4
  split
  all_goals split
  all_goals simp only [load_setOpt_excluded "Variables" hv]
  all_goals first
    | rfl
    | exact load_addSection_excluded "Variables" hv c

theorem load_updateBG (c : Config) :
    loadEntriesFromIni (writeThenRead (updateBackgroundMeter c)) =
      loadEntriesFromIni (writeThenRead c) := by
  have hv : shouldExcludeSection "BackgroundMeter" = true := by decide
  unfold updateBackgroundMeter
  dsimp only
  split
  all_goals simp only [load_setOpt_excluded "BackgroundMeter" hv]
  all_goals first
    | rfl
    | exact load_addSection_excluded "BackgroundMeter" hv c

theorem load_save (c : Config) (entries : List DockEntry) (s : AppearanceSettings)
    (hsafe : roundTripSafe c entries s = true) :
    (loadEntriesFromIni (writeThenRead (saveEntriesToIni c entries s))).map entryObs =
      entries.map entryObs := by
  unfold saveEntriesToIni
  rw [load_updateBG, load_updateVars]
  unfold roundTripSafe at hsafe
  rw [addAll_structure s entries (removeEntrySections c) 0
        (configInv_of_excluded _ (removeEntry_sections_excluded c))
        (safeAux_imp_namesOk s entries _ 0 hsafe)]
  rw [writeThenRead_append, loadEntries_append, List.map_append]
  rw [load_blocks s entries _ 0 hsafe]
  rw [load_wtr_excluded (removeEntrySections c)
        (fun sec hs => excluded_contains_shouldExclude _ (removeEntry_sections_excluded c sec hs))]
  rfl

/-- C1 (amended): for every entry list that passes validation (names
non-empty after stripping and pairwise distinct), and whose serializer
replay is round-trip safe (no assigned section name is skipped by the
loader, entry names and icon paths carry no edge whitespace, the
is_separator flag agrees with the Separator_ naming convention, and every
non-separator app path is a quoted token without interior quotes), saving
with save_entries_to_ini and loading the written file with
load_entries_from_ini yields an entry list with the same names, the same
app paths for non-separator entries, the same icon paths and the same
separator flags, in the same order. -/
theorem c1_round_trip_amended (c : Config) (entries : List DockEntry)
    (s : AppearanceSettings) (_hvalid : goodNames entries)
    (hsafe : roundTripSafe c entries s = true) :
    (loadEntriesFromIni (writeThenRead (saveEntriesToIni c entries s))).map entryObs =
      entries.map entryObs :=
  load_save c entries s hsafe

/-- Witness for c1_round_trip_amended on a template-like configuration with
a shortcut entry and a separator. -/
theorem c1_round_trip_amended_witness :
    (loadEntriesFromIni (writeThenRead (saveEntriesToIni
        [IniSection.mk "Rainmeter" [("update", "100")],
         IniSection.mk "Variables" [("iconsize", "60"), ("backgroundheight", "80")],
         IniSection.mk "Style" [], IniSection.mk "BackgroundMeter" []]
        [DockEntry.mk "Notepad" "\"C:\\np.exe\"" "C:\\icon.png" false,
         DockEntry.mk "Separator_1" "\"\"" "sep.png" true]
        defaultAppearanceSettings))).map entryObs =
      [DockEntry.mk "Notepad" "\"C:\\np.exe\"" "C:\\icon.png" false,
       DockEntry.mk "Separator_1" "\"\"" "sep.png" true].map entryObs :=
  c1_round_trip_amended _ _ _ (by decide) (by decide)

/-- C1 counterexample: the singleton entry list named 999_Tooltip_0_BG
passes validation, but its serialized section matches the loader's tooltip
exclusion pattern, so saving and loading loses the entry and the claim as
stated fails. -/
theorem c1_claim_counterexample :
    goodNames [DockEntry.mk "999_Tooltip_0_BG" "\"C:\\x.exe\"" "i.png" false] ∧
    (loadEntriesFromIni (writeThenRead (saveEntriesToIni
        [IniSection.mk "Variables" [("backgroundheight", "80")]]
        [DockEntry.mk "999_Tooltip_0_BG" "\"C:\\x.exe\"" "i.png" false]
        defaultAppearanceSettings))).map entryObs ≠
      [DockEntry.mk "999_Tooltip_0_BG" "\"C:\\x.exe\"" "i.png" false].map entryObs := by
  constructor
  · decide
  · decide

/-! getOpt preservation lemmas used for the position-formula and
DisplayName claims. -/

theorem lookup_setPair_ne {k key : String} (hne : (key == k) = false) (v : String) :
    ∀ o : List (String × String), (setPair k v o).lookup key = o.lookup key := by
  intro o
  induction o with
  | nil => simp [setPair, List.lookup, hne]
  | cons p rest ih =>
    obtain ⟨pk, pv⟩ := p
    rw [setPair]
    by_cases hp : (pk == k) = true
    · rw [if_pos hp]
      have hpk : pk = k := by simpa [beq_iff_eq] using hp
      simp [List.lookup, hne, hpk]
    · rw [if_neg hp]
      cases hq : (key == pk)
      · simpa [List.lookup, hq] using ih
      · simp [List.lookup, hq]

theorem getOpt_setOpt_ne_key {k key : String} (hne : (key == k) = false) :
    ∀ (sec v : String) (c : Config),
      getOpt (setOpt sec k v c) nm key = getOpt c nm key := by
  intro sec v c
  induction c with
  | nil => rfl
  | cons s0 rest ih =>
    rw [setOpt]
    by_cases hs : (s0.name == sec) = true
    · rw [if_pos hs]
      unfold getOpt
      rw [List.find?, List.find?]
      cases hm : (s0.name == nm)
      · simp only [hm]
      · simp [hm, lookup_setPair_ne hne]
    · rw [if_neg hs]
      unfold getOpt
      rw [List.find?, List.find?]
      cases hm : (s0.name == nm)
      · simp only [hm]
        have h2 := ih
        unfold getOpt at h2
        exact h2
      · simp [hm]

theorem getOpt_prefix_not_mem (nm key : String) :
    ∀ (A B : Config), nm ∉ sectionNames A → getOpt (A ++ B) nm key = getOpt B nm key := by
  intro A
  induction A with
  | nil => intro B _; rfl
  | cons s0 A' ih =>
    intro B h
    simp only [sectionNames, List.map_cons, List.mem_cons, not_or] at h
    rw [List.cons_append]
    unfold getOpt
    rw [List.find?]
    have hm : (s0.name == nm) = false := by
      simp only [beq_eq_false_iff_ne, ne_eq]
      exact fun he => h.1 he.symm
    rw [hm]
    have h2 := ih B (by simpa [sectionNames] using h.2)
    unfold getOpt at h2
    exact h2

theorem getOpt_isSome_mem (c : Config) (nm key v : String)
    (h : getOpt c nm key = some v) : nm ∈ sectionNames c := by
  unfold getOpt at h
  cases hf : c.find? (fun s => s.name == nm) with
  | none => rw [hf] at h; exact absurd h (by simp)
  | some sec =>
    have hmem := List.mem_of_find?_eq_some hf
    have hp := List.find?_some hf
    simp only [beq_iff_eq] at hp
    rw [sectionNames, List.mem_map]
    exact ⟨sec, hmem, hp⟩

theorem addEntry_structure_of_inv (c : Config) (e : DockEntry) (i : Nat)
    (s : AppearanceSettings) (hinv : configInv c i)
    (hnm999 : strStartsWith (assignedSectionName c e) "999_Tooltip_" = false) :
    addEntryToConfig c e i s = c ++ blockFor (assignedSectionName c e) e i s := by
  have hbg := inv_fresh_bg c i hinv
  have htx := inv_fresh_text c i hinv
  have hbgn : ttBG i ≠ assignedSectionName c e := by
    intro h
    have hs := ttBG_starts i
    rw [h, hnm999] at hs
    exact Bool.false_ne_true hs
  have htxn : ttText i ≠ assignedSectionName c e := by
    intro h
    have hs := ttText_starts i
    rw [h, hnm999] at hs
    exact Bool.false_ne_true hs
  exact addEntry_structure c e i s hbg htx hbgn htxn

theorem blockFor_head_name (nm : String) (e : DockEntry) (i : Nat) (s : AppearanceSettings) :
    nm ∈ sectionNames (blockFor nm e i s) := by
  unfold blockFor
  by_cases hc : (e.is_separator || !s.tooltips) = true
  · rw [if_pos hc]
    simp [sectionNames, entrySectionFor_name]
  · rw [if_neg hc]
    simp only [sectionNames, List.map_cons, List.mem_cons]
    left
    exact (entrySectionFor_name nm e i s).symm

theorem getOpt_block_head (nm : String) (e : DockEntry) (i : Nat) (s : AppearanceSettings)
    (key : String) (B : Config) :
    getOpt (blockFor nm e i s ++ B) nm key = (entrySectionFor nm e i s).opts.lookup key := by
  unfold blockFor
  by_cases hc : (e.is_separator || !s.tooltips) = true
  · rw [if_pos hc]
    unfold getOpt
    rw [List.cons_append, List.find?]
    rw [show ((entrySectionFor nm e i s).name == nm) = true by
      rw [entrySectionFor_name]; exact beq_self_eq_true nm]
  · rw [if_neg hc]
    unfold getOpt
    rw [List.cons_append, List.find?]
    rw [show ((entrySectionFor nm e i s).name == nm) = true by
      rw [entrySectionFor_name]; exact beq_self_eq_true nm]

theorem getOpt_addAll_entry (s : AppearanceSettings) :
    ∀ (es : List DockEntry) (c : Config) (i : Nat),
      configInv c i → namesOkAux s c i es = true →
      ∀ k, k < es.length → ∀ key,
        getOpt (addAllEntries s c i es) ((entrySectionNames s c i es).getD k "") key =
          (entrySectionFor ((entrySectionNames s c i es).getD k "")
              (es.getD k (DockEntry.mk "" "" "" false)) (i + k) s).opts.lookup key := by
  intro es
  induction es with
  | nil => intro c i _ _ k hk; simp at hk
  | cons e rest ih =>
    intro c i hinv hok k hk key
    rw [namesOkAux] at hok
    simp only [Bool.and_eq_true] at hok
    have hnm999 : strStartsWith (assignedSectionName c e) "999_Tooltip_" = false := by
      simpa using hok.1
    have hstruct := addEntry_structure_of_inv c e i s hinv hnm999
    have hinv' : configInv (c ++ blockFor (assignedSectionName c e) e i s) (i + 1) :=
      configInv_append_block c i _ e s hinv hnm999
    cases k with
    | zero =>
      rw [addAllEntries, entrySectionNames]
      simp only [List.getD_cons_zero]
      rw [hstruct]
      have hok' : namesOkAux s (c ++ blockFor (assignedSectionName c e) e i s) (i + 1) rest
          = true := by rw [← hstruct]; exact hok.2
      rw [addAll_structure s rest _ (i + 1) hinv' hok']
      rw [List.append_assoc]
      rw [getOpt_prefix_not_mem _ key c _ (assignedSectionName_not_mem c e)]
      rw [getOpt_block_head]
      rw [Nat.add_zero]
    | succ k' =>
      rw [addAllEntries, entrySectionNames]
      simp only [List.getD_cons_succ]
      have hok' : namesOkAux s (addEntryToConfig c e i s) (i + 1) rest = true := hok.2
      have hinv'' : configInv (addEntryToConfig c e i s) (i + 1) := by
        rw [hstruct]; exact hinv'
      have hrec := ih (addEntryToConfig c e i s) (i + 1) hinv'' hok' k' (by
        simp only [List.length_cons] at hk; omega) key
      rw [show i + 1 + k' = i + (k' + 1) from by omega] at hrec
      exact hrec

theorem entrySectionFor_lookup_y (nm : String) (e : DockEntry) (i : Nat)
    (s : AppearanceSettings) :
    (entrySectionFor nm e i s).opts.lookup "y" =
      some (if s.orientation == "Horizontal" then "((#BackgroundHeight# - #IconSize#) / 2)"
            else vertFormulaY i) := by
  unfold entrySectionFor
  dsimp only
  cases hor : (s.orientation == "Horizontal") <;>
    cases hsep : e.is_separator <;>
      cases hdc : s.double_click <;>
        cases htt : s.tooltips <;>
          simp [List.lookup]

theorem entrySectionFor_lookup_x (nm : String) (e : DockEntry) (i : Nat)
    (s : AppearanceSettings) :
    (entrySectionFor nm e i s).opts.lookup "x" =
      some (if s.orientation == "Horizontal" then horizFormulaX i
            else "((#BackgroundWidth# - #IconSize#) / 2)") := by
  unfold entrySectionFor
  dsimp only
  cases hor : (s.orientation == "Horizontal") <;>
    cases hsep : e.is_separator <;>
      cases hdc : s.double_click <;>
        cases htt : s.tooltips <;>
          simp [List.lookup]

theorem entrySectionFor_lookup_display (nm : String) (e : DockEntry) (i : Nat)
    (s : AppearanceSettings) :
    (entrySectionFor nm e i s).opts.lookup "displayname" = some e.name := by
  unfold entrySectionFor
  dsimp only
  cases hor : (s.orientation == "Horizontal") <;>
    cases hsep : e.is_separator <;>
      cases hdc : s.double_click <;>
        cases htt : s.tooltips <;>
          simp [List.lookup]

theorem mem_names_setOpt (sec k v nm : String) (c : Config) (h : nm ∈ sectionNames c) :
    nm ∈ sectionNames (setOpt sec k v c) := by
  rw [sectionNames_setOpt]
  exact h

theorem mem_names_updVars (c : Config) (es : List DockEntry) (s : AppearanceSettings)
    (nm : String) (h : nm ∈ sectionNames c) :
    nm ∈ sectionNames (updateConfigVariables c es s) := by
  unfold updateConfigVariables
  dsimp only
  generalize (if (s.orientation == "Horizontal") = true then "1" else "0") = v1
  generalize (if (s.orientation == "Horizontal") = true then "0" else "1") = v2
  generalize (if s.double_click = true then "1" else "0") = v3
  generalize (if s.tooltips = true then "1" else "0") = v4
  simp only [sectionNames_setOpt]
  split
  all_goals split
  all_goals try simp only [sectionNames_setOpt]
  all_goals first
    | exact h
    | (unfold addSection
       rw [sectionNames, List.map_append]
       exact List.mem_append.mpr (Or.inl h))

theorem getOpt_updVars (c : Config) (es : List DockEntry) (s : AppearanceSettings)
    (nm key : String) (hmem : nm ∈ sectionNames c) (hkey : key ∉ varUpdatedKeys) :
    getOpt (updateConfigVariables c es s) nm key = getOpt c nm key := by
  unfold varUpdatedKeys at hkey
  simp only [List.mem_cons, List.not_mem_nil, or_false, not_or] at hkey
  obtain ⟨h1, h2, h3, h4, h5, h6, h7, h8, h9, h10, h11, h12, h13, h14⟩ := hkey
  have b1 : (key == "appcount") = false := by simpa [beq_eq_false_iff_ne] using h1
  have b2 : (key == "cornerradius") = false := by simpa [beq_eq_false_iff_ne] using h2
  have b3 : (key == "iconsize") = false := by simpa [beq_eq_false_iff_ne] using h3
  have b4 : (key == "backgroundcolor") = false := by simpa [beq_eq_false_iff_ne] using h4
  have b5 : (key == "backgroundopacity") = false := by simpa [beq_eq_false_iff_ne] using h5
  have b6 : (key == "orientation") = false := by simpa [beq_eq_false_iff_ne] using h6
  have b7 : (key == "horizontal") = false := by simpa [beq_eq_false_iff_ne] using h7
  have b8 : (key == "vertical") = false := by simpa [beq_eq_false_iff_ne] using h8
  have b9 : (key == "backgroundheight") = false := by simpa [beq_eq_false_iff_ne] using h9
  have b10 : (key == "doubleclickmode") = false := by simpa [beq_eq_false_iff_ne] using h10
  have b11 : (key == "showtooltips") = false := by simpa [beq_eq_false_iff_ne] using h11
  have b12 : (key == "tooltipdelay") = false := by simpa [beq_eq_false_iff_ne] using h12
  have b13 : (key == "tooltipfont") = false := by simpa [beq_eq_false_iff_ne] using h13
  have b14 : (key == "tooltipfontsize") = false := by simpa [beq_eq_false_iff_ne] using h14
  unfold updateConfigVariables
  dsimp only
  generalize (if (s.orientation == "Horizontal") = true then "1" else "0") = v1
  generalize (if (s.orientation == "Horizontal") = true then "0" else "1") = v2
  generalize (if s.double_click = true then "1" else "0") = v3
  generalize (if s.tooltips = true then "1" else "0") = v4
  simp only [getOpt_setOpt_ne_key b1, getOpt_setOpt_ne_key b2, getOpt_setOpt_ne_key b3,
    getOpt_setOpt_ne_key b4, getOpt_setOpt_ne_key b5, getOpt_setOpt_ne_key b6,
    getOpt_setOpt_ne_key b7, getOpt_setOpt_ne_key b8, getOpt_setOpt_ne_key b9,
    getOpt_setOpt_ne_key b10, getOpt_setOpt_ne_key b11, getOpt_setOpt_ne_key b12,
    getOpt_setOpt_ne_key b13, getOpt_setOpt_ne_key b14]
  split
  all_goals split
  all_goals try simp only [getOpt_setOpt_ne_key b1, getOpt_setOpt_ne_key b2,
    getOpt_setOpt_ne_key b3, getOpt_setOpt_ne_key b4, getOpt_setOpt_ne_key b5,
    getOpt_setOpt_ne_key b6, getOpt_setOpt_ne_key b7, getOpt_setOpt_ne_key b8,
    getOpt_setOpt_ne_key b9, getOpt_setOpt_ne_key b10, getOpt_setOpt_ne_key b11,
    getOpt_setOpt_ne_key b12, getOpt_setOpt_ne_key b13, getOpt_setOpt_ne_key b14]
  all_goals first
    | rfl
    | exact getOpt_append_left nm key c _ hmem

theorem getOpt_updBG (c : Config) (nm key : String) (hmem : nm ∈ sectionNames c)
    (b1 : (key == "meter") = false) (b2 : (key == "shape") = false)
    (b3 : (key == "dynamicvariables") = false) :
    getOpt (updateBackgroundMeter c) nm key = getOpt c nm key := by
  unfold updateBackgroundMeter
  dsimp only
  simp only [getOpt_setOpt_ne_key b1, getOpt_setOpt_ne_key b2, getOpt_setOpt_ne_key b3]
  split
  · rfl
  · exact getOpt_append_left nm key c _ hmem

/-- C3 (amended): provided no entry's assigned section name matches the
tooltip helper pattern 999_Tooltip_ (such a section is overwritten by
_create_tooltip_sections, see the counterexample), the section emitted for
the entry at index i carries the Y position formula
(#PadTop# + i * (#IconSize# + #VerticalGap#)) when the orientation is
vertical, and the X position formula
(#PadLeft# + i * (#IconSize# + #HorizontalGap#)) when it is horizontal, for
every index i below the list length. -/
theorem c3_position_formulas (c : Config) (entries : List DockEntry)
    (s : AppearanceSettings)
    (hnames : namesOkAux s (removeEntrySections c) 0 entries = true)
    (i : Nat) (hi : i < entries.length) :
    (s.orientation ≠ "Horizontal" →
      getOpt (saveEntriesToIni c entries s)
        ((entrySectionNames s (removeEntrySections c) 0 entries).getD i "") "y" =
        some (vertFormulaY i)) ∧
    (s.orientation = "Horizontal" →
      getOpt (saveEntriesToIni c entries s)
        ((entrySectionNames s (removeEntrySections c) 0 entries).getD i "") "x" =
        some (horizFormulaX i)) := by
  have hinv0 := configInv_of_excluded _ (removeEntry_sections_excluded c)
  have hY := getOpt_addAll_entry s entries (removeEntrySections c) 0 hinv0 hnames i hi "y"
  have hX := getOpt_addAll_entry s entries (removeEntrySections c) 0 hinv0 hnames i hi "x"
  rw [entrySectionFor_lookup_y] at hY
  rw [entrySectionFor_lookup_x] at hX
  have hmem : ((entrySectionNames s (removeEntrySections c) 0 entries).getD i "") ∈
      sectionNames (addAllEntries s (removeEntrySections c) 0 entries) :=
    getOpt_isSome_mem _ _ _ _ hY
  have hmem2 := mem_names_updVars _ entries s _ hmem
  constructor
  · intro hvert
    have hor : (s.orientation == "Horizontal") = false := by
      simpa [beq_eq_false_iff_ne] using hvert
    rw [hor] at hY
    simp only [Bool.false_eq_true, if_false, Nat.zero_add] at hY
    unfold saveEntriesToIni
    rw [getOpt_updBG _ _ _ hmem2 (by decide) (by decide) (by decide)]
    rw [getOpt_updVars _ _ _ _ _ hmem (by decide)]
    exact hY
  · intro hhoriz
    have hor : (s.orientation == "Horizontal") = true := by
      simp [beq_iff_eq, hhoriz]
    rw [hor] at hX
    simp only [if_true, Nat.zero_add] at hX
    unfold saveEntriesToIni
    rw [getOpt_updBG _ _ _ hmem2 (by decide) (by decide) (by decide)]
    rw [getOpt_updVars _ _ _ _ _ hmem (by decide)]
    exact hX

/-- Witness for c3_position_formulas: two entries, vertical orientation. -/
theorem c3_position_formulas_witness :
    getOpt (saveEntriesToIni
        [IniSection.mk "Variables" [("backgroundheight", "80")]]
        [DockEntry.mk "A" "\"a.exe\"" "i.png" false, DockEntry.mk "B" "\"b.exe\"" "j.png" false]
        defaultAppearanceSettings)
      ((entrySectionNames defaultAppearanceSettings
          (removeEntrySections [IniSection.mk "Variables" [("backgroundheight", "80")]]) 0
          [DockEntry.mk "A" "\"a.exe\"" "i.png" false,
           DockEntry.mk "B" "\"b.exe\"" "j.png" false]).getD 1 "") "y" =
      some (vertFormulaY 1) :=
  (c3_position_formulas _ _ _ (by decide) 1 (by decide)).1 (by decide)

/-- C3 counterexample: with tooltips enabled and an entry whose name
sanitizes to a tooltip helper name, the emitted section for index 0 does
not carry the claimed Y formula (its options were replaced by the tooltip
background section). -/
theorem c3_claim_counterexample :
    entrySectionNames
        (AppearanceSettings.mk 10 60 (0, 0, 0) 175 "Vertical" false true 500 "Segoe UI" 9)
        (removeEntrySections [IniSection.mk "Variables" [("backgroundheight", "80")]]) 0
        [DockEntry.mk "999_Tooltip_0_BG" "\"C:\\x.exe\"" "i.png" false] =
      ["999_Tooltip_0_BG"] ∧
    getOpt (saveEntriesToIni
        [IniSection.mk "Variables" [("backgroundheight", "80")]]
        [DockEntry.mk "999_Tooltip_0_BG" "\"C:\\x.exe\"" "i.png" false]
        (AppearanceSettings.mk 10 60 (0, 0, 0) 175 "Vertical" false true 500 "Segoe UI" 9))
        "999_Tooltip_0_BG" "y" ≠ some (vertFormulaY 0) := by
  constructor
  · decide
  · decide

theorem entrySectionNames_nodup (s : AppearanceSettings) :
    ∀ (es : List DockEntry) (c : Config) (i : Nat),
      configInv c i → namesOkAux s c i es = true →
      (entrySectionNames s c i es).Nodup ∧
      ∀ nm ∈ entrySectionNames s c i es, nm ∉ sectionNames c := by
  intro es
  induction es with
  | nil => intro c i _ _; exact ⟨List.nodup_nil, by simp [entrySectionNames]⟩
  | cons e rest ih =>
    intro c i hinv hok
    rw [namesOkAux] at hok
    simp only [Bool.and_eq_true] at hok
    have hnm999 : strStartsWith (assignedSectionName c e) "999_Tooltip_" = false := by
      simpa using hok.1
    have hstruct := addEntry_structure_of_inv c e i s hinv hnm999
    have hinv' : configInv (addEntryToConfig c e i s) (i + 1) := by
      rw [hstruct]
      exact configInv_append_block c i _ e s hinv hnm999
    obtain ⟨hnd, hfresh⟩ := ih (addEntryToConfig c e i s) (i + 1) hinv' hok.2
    rw [entrySectionNames]
    constructor
    · rw [List.nodup_cons]
      refine ⟨?_, hnd⟩
      intro hmem
      apply hfresh _ hmem
      rw [hstruct, sectionNames, List.map_append]
      exact List.mem_append.mpr (Or.inr (blockFor_head_name _ e i s))
    · intro nm hmem
      rcases List.mem_cons.mp hmem with rfl | hmem'
      · exact assignedSectionName_not_mem c e
      · intro hmemc
        apply hfresh nm hmem'
        rw [hstruct, sectionNames, List.map_append]
        exact List.mem_append.mpr (Or.inl hmemc)

theorem mem_names_removeEntry (c : Config) (r : String) (hr : r ∈ excludedSectionsList)
    (hmem : r ∈ sectionNames c) : r ∈ sectionNames (removeEntrySections c) := by
  rw [sectionNames, List.mem_map] at hmem ⊢
  obtain ⟨sec, hsec, hname⟩ := hmem
  refine ⟨sec, ?_, hname⟩
  rw [removeEntrySections, List.mem_filter]
  refine ⟨hsec, ?_⟩
  rw [hname]
  exact List.elem_iff.mpr hr

/-- C10 (amended): provided no entry's assigned section name matches the
tooltip helper pattern (see the counterexample) and the reserved sections
are present in the file, the sections emitted for the entries have pairwise
distinct names, none of them reuses a reserved section name, and each
emitted entry section's DisplayName option equals the entry's original
unsanitized name. -/
theorem c10_unique_sections (c : Config) (entries : List DockEntry) (s : AppearanceSettings)
    (hnames : namesOkAux s (removeEntrySections c) 0 entries = true)
    (hres : ∀ r ∈ excludedSectionsList, r ∈ sectionNames c) :
    (entrySectionNames s (removeEntrySections c) 0 entries).Nodup ∧
    (∀ nm ∈ entrySectionNames s (removeEntrySections c) 0 entries,
      nm ∉ excludedSectionsList) ∧
    ∀ i, i < entries.length →
      getOpt (saveEntriesToIni c entries s)
        ((entrySectionNames s (removeEntrySections c) 0 entries).getD i "") "displayname" =
        some ((entries.getD i (DockEntry.mk "" "" "" false)).name) := by
  have hinv0 := configInv_of_excluded _ (removeEntry_sections_excluded c)
  obtain ⟨hnd, hfresh⟩ := entrySectionNames_nodup s entries (removeEntrySections c) 0 hinv0 hnames
  refine ⟨hnd, ?_, ?_⟩
  · intro nm hmem hexc
    exact hfresh nm hmem (mem_names_removeEntry c nm hexc (hres nm hexc))
  · intro i hi
    have hD := getOpt_addAll_entry s entries (removeEntrySections c) 0 hinv0 hnames i hi
      "displayname"
    rw [entrySectionFor_lookup_display] at hD
    have hmem : ((entrySectionNames s (removeEntrySections c) 0 entries).getD i "") ∈
        sectionNames (addAllEntries s (removeEntrySections c) 0 entries) :=
      getOpt_isSome_mem _ _ _ _ hD
    have hmem2 := mem_names_updVars _ entries s _ hmem
    unfold saveEntriesToIni
    rw [getOpt_updBG _ _ _ hmem2 (by decide) (by decide) (by decide)]
    rw [getOpt_updVars _ _ _ _ _ hmem (by decide)]
    exact hD

/-- Witness for c10_unique_sections: two entries whose names sanitize to the
same section name, on a template-like configuration. -/
theorem c10_unique_sections_witness :
    (entrySectionNames defaultAppearanceSettings
        (removeEntrySections [IniSection.mk "Variables" [("backgroundheight", "80")],
          IniSection.mk "Rainmeter" [], IniSection.mk "Metadata" [],
          IniSection.mk "MeasureAppCount" [], IniSection.mk "Style" [],
          IniSection.mk "MeasureFlash" [], IniSection.mk "BackgroundMeter" []]) 0
        [DockEntry.mk "A B" "\"a.exe\"" "i.png" false,
         DockEntry.mk "A_B" "\"b.exe\"" "j.png" false]).Nodup ∧
    getOpt (saveEntriesToIni
        [IniSection.mk "Variables" [("backgroundheight", "80")],
         IniSection.mk "Rainmeter" [], IniSection.mk "Metadata" [],
         IniSection.mk "MeasureAppCount" [], IniSection.mk "Style" [],
         IniSection.mk "MeasureFlash" [], IniSection.mk "BackgroundMeter" []]
        [DockEntry.mk "A B" "\"a.exe\"" "i.png" false,
         DockEntry.mk "A_B" "\"b.exe\"" "j.png" false]
        defaultAppearanceSettings)
      ((entrySectionNames defaultAppearanceSettings
          (removeEntrySections [IniSection.mk "Variables" [("backgroundheight", "80")],
            IniSection.mk "Rainmeter" [], IniSection.mk "Metadata" [],
            IniSection.mk "MeasureAppCount" [], IniSection.mk "Style" [],
            IniSection.mk "MeasureFlash" [], IniSection.mk "BackgroundMeter" []]) 0
          [DockEntry.mk "A B" "\"a.exe\"" "i.png" false,
           DockEntry.mk "A_B" "\"b.exe\"" "j.png" false]).getD 1 "") "displayname" =
      some "A_B" := by
  have h := c10_unique_sections
    [IniSection.mk "Variables" [("backgroundheight", "80")],
     IniSection.mk "Rainmeter" [], IniSection.mk "Metadata" [],
     IniSection.mk "MeasureAppCount" [], IniSection.mk "Style" [],
     IniSection.mk "MeasureFlash" [], IniSection.mk "BackgroundMeter" []]
    [DockEntry.mk "A B" "\"a.exe\"" "i.png" false,
     DockEntry.mk "A_B" "\"b.exe\"" "j.png" false]
    defaultAppearanceSettings (by decide) (by decide)
  exact ⟨h.1, h.2.2 1 (by decide)⟩

/-- C10 counterexample: with tooltips enabled and an entry named like a
tooltip helper section, the emitted entry section loses its DisplayName
option (its options are replaced by _create_tooltip_sections), so the claim
as stated fails. -/
theorem c10_claim_counterexample :
    entrySectionNames
        (AppearanceSettings.mk 10 60 (0, 0, 0) 175 "Vertical" false true 500 "Segoe UI" 9)
        (removeEntrySections [IniSection.mk "Variables" [("backgroundheight", "80")]]) 0
        [DockEntry.mk "999_Tooltip_0_BG" "\"C:\\x.exe\"" "i.png" false] =
      ["999_Tooltip_0_BG"] ∧
    getOpt (saveEntriesToIni
        [IniSection.mk "Variables" [("backgroundheight", "80")]]
        [DockEntry.mk "999_Tooltip_0_BG" "\"C:\\x.exe\"" "i.png" false]
        (AppearanceSettings.mk 10 60 (0, 0, 0) 175 "Vertical" false true 500 "Segoe UI" 9))
        "999_Tooltip_0_BG" "displayname" ≠ some "999_Tooltip_0_BG" := by
  constructor
  · decide
  · decide

/-! Frame lemmas: the serializer leaves the reserved sections alone. -/

theorem getOpt_setOpt_ne_sec {nm sec : String} (hne : nm ≠ sec) (k val : String) :
    ∀ C : Config, getOpt (setOpt nm k val C) sec key = getOpt C sec key := by
  intro C
  induction C with
  | nil => rfl
  | cons s0 rest ih =>
    rw [setOpt]
    by_cases hs : (s0.name == nm) = true
    · rw [if_pos hs]
      have hname : s0.name = nm := by simpa [beq_iff_eq] using hs
      unfold getOpt
      rw [List.find?, List.find?]
      have hms : (s0.name == sec) = false := by
        simp only [beq_eq_false_iff_ne, ne_eq, hname]
        exact hne
      rw [hms]
    · rw [if_neg hs]
      unfold getOpt
      rw [List.find?, List.find?]
      cases hm : (s0.name == sec)
      · simp only
        have h2 := ih
        unfold getOpt at h2
        exact h2
      · simp only

theorem getOpt_setSectionItems_ne_sec {nm sec : String} (hne : nm ≠ sec)
    (opts : List (String × String)) :
    ∀ C : Config, getOpt (setSectionItems nm opts C) sec key = getOpt C sec key := by
  intro C
  induction C with
  | nil =>
    unfold setSectionItems getOpt
    have hms : ((IniSection.mk nm opts).name == sec) = false := by
      simp only [beq_eq_false_iff_ne, ne_eq]
      exact hne
    simp [List.find?, hms]
  | cons s0 rest ih =>
    rw [setSectionItems]
    by_cases hs : (s0.name == nm) = true
    · rw [if_pos hs]
      have hname : s0.name = nm := by simpa [beq_iff_eq] using hs
      unfold getOpt
      rw [List.find?, List.find?]
      have hms1 : ((IniSection.mk nm opts).name == sec) = false := by
        simp only [beq_eq_false_iff_ne, ne_eq]
        exact hne
      have hms2 : (s0.name == sec) = false := by
        simp only [beq_eq_false_iff_ne, ne_eq, hname]
        exact hne
      rw [hms1, hms2]
    · rw [if_neg hs]
      unfold getOpt
      rw [List.find?, List.find?]
      cases hm : (s0.name == sec)
      · simp only
        have h2 := ih
        unfold getOpt at h2
        exact h2
      · simp only

theorem getOpt_removeEntry (c : Config) (sec key : String)
    (hexc : sec ∈ excludedSectionsList) :
    getOpt (removeEntrySections c) sec key = getOpt c sec key := by
  induction c with
  | nil => rfl
  | cons s0 rest ih =>
    rw [removeEntrySections, List.filter]
    by_cases hk : excludedSectionsList.contains s0.name = true
    · rw [hk]
      unfold getOpt
      rw [List.find?, List.find?]
      cases hm : (s0.name == sec)
      · simp only
        have h2 := ih
        unfold getOpt removeEntrySections at h2
        exact h2
      · simp only
    · simp only [Bool.not_eq_true] at hk
      rw [hk]
      have hms : (s0.name == sec) = false := by
        simp only [beq_eq_false_iff_ne, ne_eq]
        intro he
        have h3 : excludedSectionsList.contains sec = true := List.elem_iff.mpr hexc
        rw [he] at hk
        exact absurd (h3.symm.trans hk) (by decide)
      unfold getOpt
      rw [List.find?, hms]
      have h2 := ih
      unfold getOpt removeEntrySections at h2
      exact h2

theorem getOpt_addEntry_preserved (c : Config) (e : DockEntry) (i : Nat)
    (s : AppearanceSettings) (sec key v : String)
    (hsec999 : strStartsWith sec "999_Tooltip_" = false)
    (hv : getOpt c sec key = some v) :
    getOpt (addEntryToConfig c e i s) sec key = some v := by
  have hsecmem : sec ∈ sectionNames c := getOpt_isSome_mem _ _ _ _ hv
  have hnm : assignedSectionName c e ∉ sectionNames c := assignedSectionName_not_mem c e
  have hnmne : assignedSectionName c e ≠ sec := fun h => hnm (h ▸ hsecmem)
  have httbg : ttBG i ≠ sec := by
    intro h
    have hs2 := ttBG_starts i
    rw [h, hsec999] at hs2
    exact Bool.false_ne_true hs2
  have htttx : ttText i ≠ sec := by
    intro h
    have hs2 := ttText_starts i
    rw [h, hsec999] at hs2
    exact Bool.false_ne_true hs2
  unfold addEntryToConfig addMouseActions addHoverActions createTooltipSections
  dsimp only
  cases hsepb : e.is_separator <;> cases hor : (s.orientation == "Horizontal") <;>
    cases hdc : s.double_click <;> cases htt : s.tooltips <;>
      simp only [hsepb, hor, hdc, htt, Bool.false_eq_true, Bool.true_eq_false,
        if_true, if_false] <;>
      simp only [getOpt_setOpt_ne_sec hnmne, getOpt_setSectionItems_ne_sec hnmne,
        getOpt_setSectionItems_ne_sec httbg, getOpt_setSectionItems_ne_sec htttx] <;>
      exact hv

theorem getOpt_addAll_preserved (s : AppearanceSettings) :
    ∀ (es : List DockEntry) (c : Config) (i : Nat) (sec key v : String),
      strStartsWith sec "999_Tooltip_" = false →
      getOpt c sec key = some v →
      getOpt (addAllEntries s c i es) sec key = some v := by
  intro es
  induction es with
  | nil => intro c i sec key v _ hv; exact hv
  | cons e rest ih =>
    intro c i sec key v hsec999 hv
    rw [addAllEntries]
    exact ih _ _ sec key v hsec999 (getOpt_addEntry_preserved c e i s sec key v hsec999 hv)

theorem getOpt_updVars_other (c : Config) (es : List DockEntry) (s : AppearanceSettings)
    (sec key : String) (hne : "Variables" ≠ sec) (hmem : sec ∈ sectionNames c) :
    getOpt (updateConfigVariables c es s) sec key = getOpt c sec key := by
  unfold updateConfigVariables
  dsimp only
  generalize (if (s.orientation == "Horizontal") = true then "1" else "0") = w1
  generalize (if (s.orientation == "Horizontal") = true then "0" else "1") = w2
  generalize (if s.double_click = true then "1" else "0") = w3
  generalize (if s.tooltips = true then "1" else "0") = w4
  simp only [getOpt_setOpt_ne_sec hne]
  split
  all_goals split
  all_goals try simp only [getOpt_setOpt_ne_sec hne]
  all_goals first
    | rfl
    | exact getOpt_append_left sec key c _ hmem

theorem getOpt_updBG_other (c : Config) (sec key : String)
    (hne : "BackgroundMeter" ≠ sec) (hmem : sec ∈ sectionNames c) :
    getOpt (updateBackgroundMeter c) sec key = getOpt c sec key := by
  unfold updateBackgroundMeter
  dsimp only
  simp only [getOpt_setOpt_ne_sec hne]
  split
  · rfl
  · exact getOpt_append_left sec key c _ hmem

theorem getOpt_updVars_bgheight (c : Config) (es : List DockEntry) (s : AppearanceSettings)
    (v : String) (hv : getOpt c "Variables" "backgroundheight" = some v) :
    getOpt (updateConfigVariables c es s) "Variables" "backgroundheight" = some v := by
  have hmem := getOpt_isSome_mem _ _ _ _ hv
  have b1 : ("backgroundheight" == "appcount") = false := by decide
  have b2 : ("backgroundheight" == "cornerradius") = false := by decide
  have b3 : ("backgroundheight" == "iconsize") = false := by decide
  have b4 : ("backgroundheight" == "backgroundcolor") = false := by decide
  have b5 : ("backgroundheight" == "backgroundopacity") = false := by decide
  have b6 : ("backgroundheight" == "orientation") = false := by decide
  have b7 : ("backgroundheight" == "horizontal") = false := by decide
  have b8 : ("backgroundheight" == "vertical") = false := by decide
  have b10 : ("backgroundheight" == "doubleclickmode") = false := by decide
  have b11 : ("backgroundheight" == "showtooltips") = false := by decide
  have b12 : ("backgroundheight" == "tooltipdelay") = false := by decide
  have b13 : ("backgroundheight" == "tooltipfont") = false := by decide
  have b14 : ("backgroundheight" == "tooltipfontsize") = false := by decide
  have hadd : getOpt (addSection c "Variables") "Variables" "backgroundheight" = some v := by
    have h2 := getOpt_append_left "Variables" "backgroundheight" c
      [IniSection.mk "Variables" []] hmem
    unfold addSection
    rw [h2]
    exact hv
  unfold updateConfigVariables
  dsimp only
  generalize (if (s.orientation == "Horizontal") = true then "1" else "0") = w1
  generalize (if (s.orientation == "Horizontal") = true then "0" else "1") = w2
  generalize (if s.double_click = true then "1" else "0") = w3
  generalize (if s.tooltips = true then "1" else "0") = w4
  simp only [getOpt_setOpt_ne_key b1, getOpt_setOpt_ne_key b2, getOpt_setOpt_ne_key b3,
    getOpt_setOpt_ne_key b4, getOpt_setOpt_ne_key b5, getOpt_setOpt_ne_key b6,
    getOpt_setOpt_ne_key b7, getOpt_setOpt_ne_key b8, getOpt_setOpt_ne_key b10,
    getOpt_setOpt_ne_key b11, getOpt_setOpt_ne_key b12, getOpt_setOpt_ne_key b13,
    getOpt_setOpt_ne_key b14]
  split
  all_goals split
  all_goals try simp only [getOpt_setOpt_ne_key b1, getOpt_setOpt_ne_key b2,
    getOpt_setOpt_ne_key b3, getOpt_setOpt_ne_key b4, getOpt_setOpt_ne_key b5,
    getOpt_setOpt_ne_key b6, getOpt_setOpt_ne_key b7, getOpt_setOpt_ne_key b8,
    getOpt_setOpt_ne_key b10, getOpt_setOpt_ne_key b11, getOpt_setOpt_ne_key b12,
    getOpt_setOpt_ne_key b13, getOpt_setOpt_ne_key b14]
  all_goals first
    | exact hv
    | exact hadd
    | (rename_i h; rw [hv] at h; simp at h)
    | (rename_i h; rw [hadd] at h; simp at h)

/-- C2: save_entries_to_ini leaves every pre-existing key/value pair of the
reserved sections Rainmeter, Metadata, MeasureAppCount, Style and
MeasureFlash unchanged; in the Variables section every pre-existing pair
whose key is not among the fields the serializer writes (the entry count
and the appearance settings, its orientation stored in the three keys
orientation/horizontal/vertical) is unchanged, and a pre-existing
BackgroundHeight value is also left unchanged. -/
theorem c2_reserved_sections_preserved (c : Config) (entries : List DockEntry)
    (s : AppearanceSettings) :
    (∀ sec ∈ ["Rainmeter", "Metadata", "MeasureAppCount", "Style", "MeasureFlash"],
      ∀ key v, getOpt c sec key = some v →
        getOpt (saveEntriesToIni c entries s) sec key = some v) ∧
    (∀ key v, key ∉ varUpdatedKeys → getOpt c "Variables" key = some v →
      getOpt (saveEntriesToIni c entries s) "Variables" key = some v) ∧
    (∀ v, getOpt c "Variables" "backgroundheight" = some v →
      getOpt (saveEntriesToIni c entries s) "Variables" "backgroundheight" = some v) := by
  refine ⟨?_, ?_, ?_⟩
  · intro sec hsec key v hv
    simp only [List.mem_cons, List.not_mem_nil, or_false] at hsec
    have hexc : sec ∈ excludedSectionsList := by
      rcases hsec with rfl | rfl | rfl | rfl | rfl <;> decide
    have h999 : strStartsWith sec "999_Tooltip_" = false := by
      rcases hsec with rfl | rfl | rfl | rfl | rfl <;> decide
    have hnev : "Variables" ≠ sec := by
      rcases hsec with rfl | rfl | rfl | rfl | rfl <;> decide
    have hneb : "BackgroundMeter" ≠ sec := by
      rcases hsec with rfl | rfl | rfl | rfl | rfl <;> decide
    have h2 : getOpt (removeEntrySections c) sec key = some v := by
      rw [getOpt_removeEntry c sec key hexc]
      exact hv
    have h3 := getOpt_addAll_preserved s entries (removeEntrySections c) 0 sec key v h999 h2
    have hmem3 := getOpt_isSome_mem _ _ _ _ h3
    have h4 : getOpt (updateConfigVariables
        (addAllEntries s (removeEntrySections c) 0 entries) entries s) sec key = some v := by
      rw [getOpt_updVars_other _ entries s sec key hnev hmem3]
      exact h3
    have hmem4 := getOpt_isSome_mem _ _ _ _ h4
    unfold saveEntriesToIni
    rw [getOpt_updBG_other _ sec key hneb hmem4]
    exact h4
  · intro key v hkey hv
    have h2 : getOpt (removeEntrySections c) "Variables" key = some v := by
      rw [getOpt_removeEntry c _ key (by decide)]
      exact hv
    have h3 := getOpt_addAll_preserved s entries (removeEntrySections c) 0 _ key v
      (by decide) h2
    have hmem3 := getOpt_isSome_mem _ _ _ _ h3
    have h4 : getOpt (updateConfigVariables
        (addAllEntries s (removeEntrySections c) 0 entries) entries s) "Variables" key
        = some v := by
      rw [getOpt_updVars _ entries s _ key hmem3 hkey]
      exact h3
    have hmem4 := getOpt_isSome_mem _ _ _ _ h4
    unfold saveEntriesToIni
    rw [getOpt_updBG_other _ _ key (by decide) hmem4]
    exact h4
  · intro v hv
    have h2 : getOpt (removeEntrySections c) "Variables" "backgroundheight" = some v := by
      rw [getOpt_removeEntry c _ _ (by decide)]
      exact hv
    have h3 := getOpt_addAll_preserved s entries (removeEntrySections c) 0 _ _ v
      (by decide) h2
    have h4 := getOpt_updVars_bgheight _ entries s v h3
    have hmem4 := getOpt_isSome_mem _ _ _ _ h4
    unfold saveEntriesToIni
    rw [getOpt_updBG_other _ _ _ (by decide) hmem4]
    exact h4

/-- Witness for c2_reserved_sections_preserved on a template-like file with
a custom Variables key. -/
theorem c2_reserved_sections_preserved_witness :
    getOpt (saveEntriesToIni
        [IniSection.mk "Rainmeter" [("update", "100")],
         IniSection.mk "Variables" [("rotationangle", "0"), ("backgroundheight", "80")]]
        [DockEntry.mk "A" "\"a.exe\"" "i.png" false]
        defaultAppearanceSettings) "Rainmeter" "update" = some "100" ∧
    getOpt (saveEntriesToIni
        [IniSection.mk "Rainmeter" [("update", "100")],
         IniSection.mk "Variables" [("rotationangle", "0"), ("backgroundheight", "80")]]
        [DockEntry.mk "A" "\"a.exe\"" "i.png" false]
        defaultAppearanceSettings) "Variables" "rotationangle" = some "0" ∧
    getOpt (saveEntriesToIni
        [IniSection.mk "Rainmeter" [("update", "100")],
         IniSection.mk "Variables" [("rotationangle", "0"), ("backgroundheight", "80")]]
        [DockEntry.mk "A" "\"a.exe\"" "i.png" false]
        defaultAppearanceSettings) "Variables" "backgroundheight" = some "80" := by
  have h := c2_reserved_sections_preserved
    [IniSection.mk "Rainmeter" [("update", "100")],
     IniSection.mk "Variables" [("rotationangle", "0"), ("backgroundheight", "80")]]
    [DockEntry.mk "A" "\"a.exe\"" "i.png" false]
    defaultAppearanceSettings
  exact ⟨h.1 "Rainmeter" (by decide) "update" "100" (by decide),
         h.2.1 "rotationangle" "0" (by decide) (by decide),
         h.2.2 "80" (by decide)⟩

/-! Validation lemmas. -/

theorem validateSingle_silent (ask : String → Bool) (allEntries : List DockEntry)
    (idx : Nat) (e : DockEntry) :
    validateSingleEntry ask false allEntries idx e =
      if stripWS e.name = "" then
        Except.error ("Entry #" ++ natRepr (idx + 1) ++ " has an empty name")
      else if 1 < countName allEntries e.name then
        Except.error ("Duplicate entry name: " ++ e.name)
      else Except.ok true := by
  unfold validateSingleEntry
  simp only [Bool.and_false, Bool.false_eq_true, if_false]

theorem countName_eq_count (entries : List DockEntry) (n : String) :
    countName entries n = (entries.map DockEntry.name).count n := by
  unfold countName
  rw [List.count, List.countP_map]
  rw [← List.countP_eq_length_filter]
  rfl

theorem goodNames_count_le (entries : List DockEntry) (hgood : goodNames entries)
    (e : DockEntry) : ¬(1 < countName entries e.name) := by
  rw [countName_eq_count]
  have := List.nodup_iff_count_le_one.mp hgood.2 e.name
  omega

theorem silent_aux_ok (ask : String → Bool) (entries : List DockEntry)
    (hgood : goodNames entries) :
    ∀ (rest : List DockEntry) (i : Nat), (∀ e ∈ rest, e ∈ entries) →
      validateEntriesAux ask false entries i rest = Except.ok true := by
  intro rest
  induction rest with
  | nil => intro i _; rfl
  | cons e r ih =>
    intro i hsub
    rw [validateEntriesAux, validateSingle_silent]
    rw [if_neg (hgood.1 e (hsub e (List.mem_cons_self e r)))]
    rw [if_neg (goodNames_count_le entries hgood e)]
    exact ih (i + 1) (fun x hx => hsub x (List.mem_cons_of_mem e hx))

theorem silent_aux_error (ask : String → Bool) (entries : List DockEntry) :
    ∀ (rest : List DockEntry) (i : Nat),
      (∃ e ∈ rest, stripWS e.name = "" ∨ 1 < countName entries e.name) →
      ∃ m, validateEntriesAux ask false entries i rest = Except.error m := by
  intro rest
  induction rest with
  | nil => intro i ⟨e, he, _⟩; exact absurd he (List.not_mem_nil e)
  | cons e r ih =>
    intro i ⟨e', he', hbad⟩
    rw [validateEntriesAux, validateSingle_silent]
    by_cases h1 : stripWS e.name = ""
    · rw [if_pos h1]
      exact ⟨_, rfl⟩
    · rw [if_neg h1]
      by_cases h2 : 1 < countName entries e.name
      · rw [if_pos h2]
        exact ⟨_, rfl⟩
      · rw [if_neg h2]
        rcases List.mem_cons.mp he' with rfl | he''
        · rcases hbad with hb | hb
          · exact absurd hb h1
          · exact absurd hb h2
        · exact ih (i + 1) ⟨e', he'', hbad⟩

theorem not_goodNames_witness (entries : List DockEntry) (hbad : ¬goodNames entries) :
    ∃ e ∈ entries, stripWS e.name = "" ∨ 1 < countName entries e.name := by
  unfold goodNames at hbad
  rw [not_and_or] at hbad
  rcases hbad with h | h
  · push_neg at h
    obtain ⟨e, he, hname⟩ := h
    exact ⟨e, he, Or.inl hname⟩
  · rw [List.nodup_iff_count_le_one] at h
    push_neg at h
    obtain ⟨a, ha⟩ := h
    have hpos : 0 < (entries.map DockEntry.name).count a := by omega
    have hmem : a ∈ entries.map DockEntry.name := List.count_pos_iff.mp hpos
    rw [List.mem_map] at hmem
    obtain ⟨e, he, hname⟩ := hmem
    refine ⟨e, he, Or.inr ?_⟩
    rw [countName_eq_count, hname]
    omega

theorem interactive_aux_reject (ask : String → Bool) (entries : List DockEntry) :
    ∀ (rest : List DockEntry) (i : Nat),
      (∃ e ∈ rest, stripWS e.name = "" ∨ 1 < countName entries e.name) →
      validateEntriesAux ask true entries i rest = Except.ok false := by
  intro rest
  induction rest with
  | nil => intro i ⟨e, he, _⟩; exact absurd he (List.not_mem_nil e)
  | cons e r ih =>
    intro i ⟨e', he', hbad⟩
    rw [validateEntriesAux]
    unfold validateSingleEntry
    by_cases h1 : stripWS e.name = ""
    · simp only [h1, if_true, if_pos]
    · by_cases h2 : 1 < countName entries e.name
      · simp only [h1, if_false, h2, if_true, if_pos]
      · have hnext : ∃ x ∈ r, stripWS x.name = "" ∨ 1 < countName entries x.name := by
          rcases List.mem_cons.mp he' with rfl | he''
          · rcases hbad with hb | hb
            · exact absurd hb h1
            · exact absurd hb h2
          · exact ⟨e', he'', hbad⟩
        simp only [h1, h2, if_false]
        by_cases h3 : (!e.is_separator && (decide (stripWS e.app_path = "") ||
            decide (e.app_path = "\"\"")) && true) = true
        · rw [if_pos h3]
          cases hask : ask ("Entry '" ++ e.name ++ "' has an empty app path. Save anyway?")
          · rfl
          · exact ih (i + 1) hnext
        · rw [if_neg h3]
          by_cases h4 : ((decide (stripWS e.icon_path = "") ||
              decide (e.icon_path = "\"\"")) && true) = true
          · rw [if_pos h4]
            cases hask : ask ("Entry '" ++ e.name ++ "' has an empty icon path. Save anyway?")
            · rfl
            · exact ih (i + 1) hnext
          · rw [if_neg h4]
            exact ih (i + 1) hnext

/-- C4: validate_entries (silent mode) accepts an entry list exactly when every
name is non-empty after stripping and the names are pairwise distinct under
case-sensitive comparison; on any name violation the silent path raises (an
error) and the interactive path rejects the whole list (returns false). -/
theorem c4_validation (ask : String → Bool) (entries : List DockEntry) :
    (validateEntries ask entries false = Except.ok true ↔ goodNames entries) ∧
    (¬goodNames entries →
      (∃ m, validateEntries ask entries false = Except.error m) ∧
      validateEntries ask entries true = Except.ok false) := by
  constructor
  · constructor
    · intro h
      by_contra hbad
      obtain ⟨m, hm⟩ := silent_aux_error ask entries entries 0 (not_goodNames_witness entries hbad)
      unfold validateEntries at h
      rw [hm] at h
      exact Except.noConfusion h
    · intro hgood
      exact silent_aux_ok ask entries hgood entries 0 (fun _ hx => hx)
  · intro hbad
    exact ⟨silent_aux_error ask entries entries 0 (not_goodNames_witness entries hbad),
      interactive_aux_reject ask entries entries 0 (not_goodNames_witness entries hbad)⟩

theorem c4_validation_witness :
    (validateEntries (fun _ => true) [DockEntry.mk "A" "\"p\"" "i" false] false =
      Except.ok true) ∧
    validateEntries (fun _ => true) [DockEntry.mk " " "\"p\"" "i" false] true =
      Except.ok false :=
  ⟨(c4_validation (fun _ => true) [DockEntry.mk "A" "\"p\"" "i" false]).1.mpr (by decide),
   ((c4_validation (fun _ => true) [DockEntry.mk " " "\"p\"" "i" false]).2 (by decide)).2⟩

theorem interactive_aux_decline (entries : List DockEntry) (hgood : goodNames entries) :
    ∀ (rest : List DockEntry) (i : Nat), (∀ e ∈ rest, e ∈ entries) →
      (∃ e ∈ rest, badPathB e = true) →
      validateEntriesAux (fun _ => false) true entries i rest = Except.ok false := by
  intro rest
  induction rest with
  | nil => intro i _ ⟨e, he, _⟩; exact absurd he (List.not_mem_nil e)
  | cons e r ih =>
    intro i hsub ⟨e', he', hbad⟩
    rw [validateEntriesAux]
    unfold validateSingleEntry
    have h1 : ¬(stripWS e.name = "") := hgood.1 e (hsub e (List.mem_cons_self e r))
    have h2 : ¬(1 < countName entries e.name) := goodNames_count_le entries hgood e
    rw [if_neg h1, if_neg h2]
    by_cases h3 : (!e.is_separator && (decide (stripWS e.app_path = "") ||
        decide (e.app_path = "\"\"")) && true) = true
    · rw [if_pos h3]
    · rw [if_neg h3]
      by_cases h4 : ((decide (stripWS e.icon_path = "") ||
          decide (e.icon_path = "\"\"")) && true) = true
      · rw [if_pos h4]
      · rw [if_neg h4]
        rcases List.mem_cons.mp he' with rfl | he''
        · exfalso
          simp only [Bool.and_true] at h3 h4
          simp only [badPathB, Bool.or_eq_true, Bool.and_eq_true, beq_iff_eq,
            decide_eq_true_eq, Bool.not_eq_true'] at hbad h3 h4
          tauto
        · exact ih (i + 1) (fun x hx => hsub x (List.mem_cons_of_mem e hx)) ⟨e', he'', hbad⟩

/-- C6: the silent and interactive validators diverge exactly on path fields:
for a list with good names the silent validator accepts even when app or icon
paths are empty, a name violation makes the silent path raise an error rather
than return false, and the interactive validator (with a declining user)
returns false on exactly those empty-path entries the silent path ignores. -/
theorem c6_silent_interactive_divergence (ask : String → Bool) (entries : List DockEntry) :
    (goodNames entries → validateEntries ask entries false = Except.ok true) ∧
    (¬goodNames entries → ∃ m, validateEntries ask entries false = Except.error m) ∧
    (goodNames entries → (∃ e ∈ entries, badPathB e = true) →
      validateEntries (fun _ => false) entries true = Except.ok false) := by
  refine ⟨?_, ?_, ?_⟩
  · intro hgood
    exact silent_aux_ok ask entries hgood entries 0 (fun _ hx => hx)
  · intro hbad
    exact silent_aux_error ask entries entries 0 (not_goodNames_witness entries hbad)
  · intro hgood hpath
    exact interactive_aux_decline entries hgood entries 0 (fun _ hx => hx) hpath

theorem c6_silent_interactive_divergence_witness :
    (validateEntries (fun _ => true) [DockEntry.mk "App" "" "" false] false =
      Except.ok true) ∧
    (∃ m, validateEntries (fun _ => true) [DockEntry.mk "  " "" "" false] false =
      Except.error m) ∧
    validateEntries (fun _ => false) [DockEntry.mk "App" "" "" false] true =
      Except.ok false :=
  ⟨(c6_silent_interactive_divergence (fun _ => true)
      [DockEntry.mk "App" "" "" false]).1 (by decide),
   (c6_silent_interactive_divergence (fun _ => true)
      [DockEntry.mk "  " "" "" false]).2.1 (by decide),
   (c6_silent_interactive_divergence (fun _ => true)
      [DockEntry.mk "App" "" "" false]).2.2 (by decide) (by decide)⟩

theorem safeIntParse_none (s : String) (d : Int) (hp : pyParseInt s = none) :
    safeIntParse (some s) d = d := by
  unfold safeIntParse
  by_cases hs : s = ""
  · simp [hs]
  · simp [hs, hp]

/-- C5: when the Variables section is present, a malformed (non-numeric)
string under any numeric appearance key — BackgroundOpacity, CornerRadius,
IconSize, TooltipDelay, TooltipFontSize — makes load_appearance_settings
return that field's documented default (175, 10, 60, 500, 9) instead of an
error, and a color string that does not parse as an RGB triple yields the
default color (0, 0, 0). -/
theorem c5_malformed_defaults (c : Config) (vars : IniSection)
    (hfind : c.find? (fun s => s.name == "Variables") = some vars) :
    (∀ s, vars.opts.lookup "backgroundopacity" = some s → pyParseInt s = none →
      (loadAppearanceSettings c).opacity = 175) ∧
    (∀ s, vars.opts.lookup "cornerradius" = some s → pyParseInt s = none →
      (loadAppearanceSettings c).corner_radius = 10) ∧
    (∀ s, vars.opts.lookup "iconsize" = some s → pyParseInt s = none →
      (loadAppearanceSettings c).dock_size = 60) ∧
    (∀ s, vars.opts.lookup "tooltipdelay" = some s → pyParseInt s = none →
      (loadAppearanceSettings c).tooltip_delay = 500) ∧
    (∀ s, vars.opts.lookup "tooltipfontsize" = some s → pyParseInt s = none →
      (loadAppearanceSettings c).tooltip_font_size = 9) ∧
    (∀ s, vars.opts.lookup "backgroundcolor" = some s →
      (∀ r g b : Int, parseRGB s ≠ some [r, g, b]) →
      (loadAppearanceSettings c).current_color = (0, 0, 0)) := by
  unfold loadAppearanceSettings
  rw [hfind]
  refine ⟨?_, ?_, ?_, ?_, ?_, ?_⟩
  · intro s hl hp
    dsimp only
    rw [hl]
    exact safeIntParse_none s _ hp
  · intro s hl hp
    dsimp only
    rw [hl]
    exact safeIntParse_none s _ hp
  · intro s hl hp
    dsimp only
    rw [hl]
    exact safeIntParse_none s _ hp
  · intro s hl hp
    dsimp only
    rw [hl]
    exact safeIntParse_none s _ hp
  · intro s hl hp
    dsimp only
    rw [hl]
    exact safeIntParse_none s _ hp
  · intro s hl hp
    dsimp only
    rw [hl]
    simp only [Option.getD_some]
    rcases hrgb : parseRGB s with _ | l
    · rfl
    · rcases l with _ | ⟨r, l⟩
      · rfl
      · rcases l with _ | ⟨g, l⟩
        · rfl
        · rcases l with _ | ⟨b, l⟩
          · rfl
          · rcases l with _ | ⟨x, l⟩
            · exact absurd hrgb (hp r g b)
            · rfl

theorem c5_malformed_defaults_witness :
    (loadAppearanceSettings [IniSection.mk "Variables"
      [("backgroundopacity", "175.95"), ("cornerradius", "abc"),
       ("iconsize", "big"), ("tooltipdelay", "7.5"),
       ("tooltipfontsize", "x"), ("backgroundcolor", "10,20")]]).opacity = 175 ∧
    (loadAppearanceSettings [IniSection.mk "Variables"
      [("backgroundopacity", "175.95"), ("cornerradius", "abc"),
       ("iconsize", "big"), ("tooltipdelay", "7.5"),
       ("tooltipfontsize", "x"), ("backgroundcolor", "10,20")]]).corner_radius = 10 ∧
    (loadAppearanceSettings [IniSection.mk "Variables"
      [("backgroundopacity", "175.95"), ("cornerradius", "abc"),
       ("iconsize", "big"), ("tooltipdelay", "7.5"),
       ("tooltipfontsize", "x"), ("backgroundcolor", "10,20")]]).dock_size = 60 ∧
    (loadAppearanceSettings [IniSection.mk "Variables"
      [("backgroundopacity", "175.95"), ("cornerradius", "abc"),
       ("iconsize", "big"), ("tooltipdelay", "7.5"),
       ("tooltipfontsize", "x"), ("backgroundcolor", "10,20")]]).tooltip_delay = 500 ∧
    (loadAppearanceSettings [IniSection.mk "Variables"
      [("backgroundopacity", "175.95"), ("cornerradius", "abc"),
       ("iconsize", "big"), ("tooltipdelay", "7.5"),
       ("tooltipfontsize", "x"), ("backgroundcolor", "10,20")]]).tooltip_font_size = 9 ∧
    (loadAppearanceSettings [IniSection.mk "Variables"
      [("backgroundopacity", "175.95"), ("cornerradius", "abc"),
       ("iconsize", "big"), ("tooltipdelay", "7.5"),
       ("tooltipfontsize", "x"), ("backgroundcolor", "10,20")]]).current_color = (0, 0, 0) := by
  have h := c5_malformed_defaults
    [IniSection.mk "Variables"
      [("backgroundopacity", "175.95"), ("cornerradius", "abc"),
       ("iconsize", "big"), ("tooltipdelay", "7.5"),
       ("tooltipfontsize", "x"), ("backgroundcolor", "10,20")]]
    (IniSection.mk "Variables"
      [("backgroundopacity", "175.95"), ("cornerradius", "abc"),
       ("iconsize", "big"), ("tooltipdelay", "7.5"),
       ("tooltipfontsize", "x"), ("backgroundcolor", "10,20")]) rfl
  refine ⟨h.1 "175.95" rfl (by decide), h.2.1 "abc" rfl (by decide),
    h.2.2.1 "big" rfl (by decide), h.2.2.2.1 "7.5" rfl (by decide),
    h.2.2.2.2.1 "x" rfl (by decide), h.2.2.2.2.2 "10,20" rfl ?_⟩
  intro r g b hcon
  rw [show parseRGB "10,20" = some [10, 20] from by decide] at hcon
  simp at hcon

theorem wordChar_map_eq (c : Char) :
    (if isWordChar c then c else '_') =
    (if ('a' ≤ c ∧ c ≤ 'z') ∨ ('A' ≤ c ∧ c ≤ 'Z') ∨ ('0' ≤ c ∧ c ≤ '9') ∨ c = '_'
      then c else '_') := by
  refine if_congr ?_ rfl rfl
  simp only [isWordChar, Bool.or_eq_true, Bool.and_eq_true, decide_eq_true_eq, beq_iff_eq]
  tauto

theorem beqUnderscore_eq (c : Char) : (c == '_') = decide (c = '_') := by
  by_cases h : c = '_' <;> simp [h]

theorem destutter_prime_collapse (l : List Char) : ∀ a : Char,
    List.destutter' (fun a b => ¬(a = '_' ∧ b = '_')) a l =
      a :: collapseAux (decide (a = '_')) l := by
  induction l with
  | nil => intro a; rfl
  | cons b l ih =>
    intro a
    rw [List.destutter'_cons]
    by_cases h : a = '_' ∧ b = '_'
    · rw [if_neg (not_not_intro h), ih a]
      obtain ⟨ha, hb⟩ := h
      simp [collapseAux, ha, hb]
    · rw [if_pos h, ih b]
      by_cases hb : b = '_'
      · have ha : ¬(a = '_') := fun ha => h ⟨ha, hb⟩
        simp [collapseAux, hb, ha]
      · simp [collapseAux, hb]

theorem destutter_eq_collapse (l : List Char) :
    List.destutter (fun a b => ¬(a = '_' ∧ b = '_')) l = collapseAux false l := by
  cases l with
  | nil => rfl
  | cons c l =>
    rw [List.destutter, destutter_prime_collapse l c]
    by_cases hc : c = '_'
    · simp [collapseAux, hc]
    · simp [collapseAux, hc]

/-- C8: sanitize_section_name implements exactly the specified rule: every
character outside [a-zA-Z0-9_] becomes an underscore, runs of consecutive
underscores collapse to one, leading and trailing underscores are removed,
and the literal "Entry" is returned when the result would be empty. -/
theorem c8_sanitize_refinement (name : String) :
    sanitize_section_name name = sanitizeSpec name := by
  unfold sanitize_section_name sanitizeSpec stripUnderscores
  dsimp only
  rw [show (fun c : Char => if isWordChar c then c else '_') =
      (fun c : Char =>
        if ('a' ≤ c ∧ c ≤ 'z') ∨ ('A' ≤ c ∧ c ≤ 'Z') ∨ ('0' ≤ c ∧ c ≤ '9') ∨ c = '_'
        then c else '_') from funext wordChar_map_eq]
  rw [← destutter_eq_collapse]
  rw [show (fun c : Char => c == '_') = (fun c : Char => decide (c = '_')) from
      funext beqUnderscore_eq]
  refine if_congr ?_ rfl rfl
  exact List.isEmpty_iff

theorem scanFree_cases (nums : List Nat) (fb : Nat) :
    ∀ (fuel i : Nat),
      (scanFree nums fb i fuel = fb ∧
        ∀ k, i ≤ k → k < i + fuel → nums.contains k = true) ∨
      (i ≤ scanFree nums fb i fuel ∧
        nums.contains (scanFree nums fb i fuel) = false ∧
        ∀ k, i ≤ k → k < scanFree nums fb i fuel → nums.contains k = true) := by
  intro fuel
  induction fuel with
  | zero =>
    intro i
    left
    exact ⟨rfl, fun k hk1 hk2 => absurd hk2 (by omega)⟩
  | succ fuel ih =>
    intro i
    rw [scanFree]
    cases hc : nums.contains i with
    | true =>
      rw [if_pos rfl]
      rcases ih (i + 1) with ⟨heq, hall⟩ | ⟨hge, hfree, hall⟩
      · left
        refine ⟨heq, fun k hk1 hk2 => ?_⟩
        by_cases hki : k = i
        · rw [hki]; exact hc
        · exact hall k (by omega) (by omega)
      · right
        refine ⟨by omega, hfree, fun k hk1 hk2 => ?_⟩
        by_cases hki : k = i
        · rw [hki]; exact hc
        · exact hall k (by omega) hk2
    | false =>
      rw [if_neg Bool.false_ne_true]
      right
      exact ⟨le_refl i, hc, fun k hk1 hk2 => absurd hk2 (by omega)⟩

theorem foldl_max_le (l : List Nat) :
    ∀ acc, acc ≤ l.foldl max acc ∧ ∀ x ∈ l, x ≤ l.foldl max acc := by
  induction l with
  | nil => intro acc; exact ⟨le_refl _, by simp⟩
  | cons a l ih =>
    intro acc
    have h := ih (max acc a)
    refine ⟨le_trans (le_max_left acc a) h.1, fun x hx => ?_⟩
    rcases List.mem_cons.mp hx with rfl | hx'
    · exact le_trans (le_max_right acc x) h.1
    · exact h.2 x hx'

theorem le_listMax (l : List Nat) : ∀ x ∈ l, x ≤ listMax l :=
  (foldl_max_le l 0).2

theorem contains_false_not_mem (nums : List Nat) (n : Nat)
    (hc : nums.contains n = false) : n ∉ nums := by
  intro hmem
  have ht : nums.contains n = true := List.elem_iff.mpr hmem
  rw [ht] at hc
  exact Bool.noConfusion hc

theorem not_mem_contains_false (nums : List Nat) (n : Nat)
    (hn : n ∉ nums) : nums.contains n = false := by
  cases hc : nums.contains n with
  | false => rfl
  | true => exact absurd (List.elem_iff.mp hc) hn

/-- C9: get_next_dock_number returns the least positive integer that is not
a numeric suffix of an existing LuckyDock-prefixed dock name; with no
numeric suffixes present this forces the result 1, and gaps left by deleted
docks are reused before a new maximum is allocated. -/
theorem c9_least_free (docks : List String) :
    1 ≤ get_next_dock_number docks ∧
    get_next_dock_number docks ∉ dockNums docks ∧
    ∀ m, 1 ≤ m → m ∉ dockNums docks → get_next_dock_number docks ≤ m := by
  unfold get_next_dock_number
  dsimp only
  by_cases hemp : (dockNums docks).isEmpty = true
  · rw [if_pos hemp]
    have hnil : dockNums docks = [] := List.isEmpty_iff.mp hemp
    refine ⟨le_refl 1, ?_, fun m hm _ => hm⟩
    rw [hnil]
    exact List.not_mem_nil 1
  · rw [if_neg hemp]
    rcases scanFree_cases (dockNums docks) (listMax (dockNums docks) + 1)
        (listMax (dockNums docks) + 1) 1 with ⟨heq, hall⟩ | ⟨hge, hfree, hall⟩
    · exfalso
      have hcont := hall (listMax (dockNums docks) + 1) (by omega) (by omega)
      have hmem := List.elem_iff.mp hcont
      have := le_listMax (dockNums docks) _ hmem
      omega
    · refine ⟨hge, contains_false_not_mem _ _ hfree, fun m hm hmnot => ?_⟩
      by_contra hlt
      push_neg at hlt
      have hcont := hall m hm hlt
      exact hmnot (List.elem_iff.mp hcont)

theorem c9_least_free_witness :
    1 ≤ get_next_dock_number ["LuckyDock1", "LuckyDock3"] ∧
    get_next_dock_number ["LuckyDock1", "LuckyDock3"] ∉
      dockNums ["LuckyDock1", "LuckyDock3"] ∧
    get_next_dock_number ["LuckyDock1", "LuckyDock3"] ≤ 2 :=
  ⟨(c9_least_free ["LuckyDock1", "LuckyDock3"]).1,
   (c9_least_free ["LuckyDock1", "LuckyDock3"]).2.1,
   (c9_least_free ["LuckyDock1", "LuckyDock3"]).2.2 2 (by decide) (by decide)⟩
